import Mathlib

/-!
Verification of the HTCP protocol implementation of the Messenger-Server
repository against its natural-language specification.

The development shallowly embeds the Python sources:

* `src/src/htcp/common/serialization.py` — the tagged binary value serializer
  (`serialize` / `deserialize` and their helpers);
* `src/src/htcp/common/proto.py` and `src/src/htcp/common/transport.py` —
  packet framing (`Packet.to_bytes`, `Packet.from_bytes`, `recv_packet`);
* `src/src/htcp/server/server.py`, `server/connection.py`,
  `server/subscription.py` — the per-connection packet dispatch, the
  transaction / subscription handling, and the registries;
* `src/msgr_serv/libs/htcp/common/utils.py` — `prepare_arguments` and
  `convert_to_type` (argument coercion);
* `src/src/common/notify_manager.py` — the notify hub.

Modelling conventions:

* Python `bytes` values and Python `str` values are modelled as `List Nat`
  (for `str`, the list of its UTF-8 bytes; `encode`/`decode` between the two
  is the identity of this representation).  `asciiBytes` builds such a list
  from an ASCII literal.
* Machine-level packing is explicit: `struct.pack('>I'/'>q'/'>B')` becomes
  big-endian byte lists over `Nat`/`Int` with the two's-complement embedding
  written out.  `float` and `complex` values are carried as their IEEE-754
  64-bit big-endian bit patterns, which is exactly what
  `struct.pack('>d')`/`struct.unpack('>d')` move to and from the wire;
  equality of such values is equality of bit patterns.  A `timedelta` is
  carried as its exact integer microsecond count, and its lossy route
  through `total_seconds()` (a correctly rounded float64) and
  `timedelta(seconds=...)` (rounding back to whole microseconds) is embedded
  by `floatBitsOfMicros` / `microsOfFloatBits` below.
* `datetime`/`date`/`time` values are carried as the UTF-8 bytes of their
  ISO-8601 form (`isoformat()`), `Decimal` as the bytes of `str(obj)`:
  Python's `fromisoformat`/`Decimal` constructors are left inverses of these
  canonical forms, so identity of the canonical form is identity of the value.
* Fallible Python code (raising `ValueError`, `struct.error`, `KeyError`,
  arbitrary handler exceptions) is modelled with `Option`/`Except`.
-/

/-! ## Byte-level helpers

`natToBytesBE w n` is the `w`-byte big-endian encoding of `n` (the low
`8*w` bits, exactly what `struct.pack` / `int.to_bytes(w, 'big')` emit for
in-range values), and `bytesToNatBE` the corresponding unsigned read
(`struct.unpack` / `int.from_bytes(_, 'big')`). -/

def natToBytesBE : Nat → Nat → List Nat
  | 0, _ => []
  | w + 1, n => (n / 256 ^ w) % 256 :: natToBytesBE w n

def bytesToNatBE : List Nat → Nat
  | [] => 0
  | b :: bs => b * 256 ^ bs.length + bytesToNatBE bs

def asciiBytes (s : String) : List Nat := s.data.map Char.toNat

@[simp] theorem natToBytesBE_length (w n : Nat) : (natToBytesBE w n).length = w := by
  induction w generalizing n with
  | zero => rfl
  | succ w ih => simp [natToBytesBE, ih]

theorem bytesToNatBE_natToBytesBE (w n : Nat) :
    bytesToNatBE (natToBytesBE w n) = n % 256 ^ w := by
  induction w generalizing n with
  | zero => simp [natToBytesBE, bytesToNatBE, Nat.mod_one]
  | succ w ih =>
    have h : (256 : Nat) ^ (w + 1) = 256 ^ w * 256 := by ring
    rw [natToBytesBE, bytesToNatBE, natToBytesBE_length, ih, h, Nat.mod_mul]
    ring

theorem bytesToNatBE_natToBytesBE_of_lt {w n : Nat} (h : n < 256 ^ w) :
    bytesToNatBE (natToBytesBE w n) = n := by
  rw [bytesToNatBE_natToBytesBE, Nat.mod_eq_of_lt h]

theorem take_natToBytesBE_append (w n : Nat) (rest : List Nat) :
    (natToBytesBE w n ++ rest).take w = natToBytesBE w n := by
  have := List.take_left (natToBytesBE w n) rest
  rwa [natToBytesBE_length] at this

theorem drop_natToBytesBE_append (w n : Nat) (rest : List Nat) :
    (natToBytesBE w n ++ rest).drop w = rest := by
  have := List.drop_left (natToBytesBE w n) rest
  rwa [natToBytesBE_length] at this

theorem pow_256_eq_pow_2 (w : Nat) : (256 : Nat) ^ w = 2 ^ (8 * w) := by
  rw [show (256 : Nat) = 2 ^ 8 from rfl, ← Nat.pow_mul]

/-! ## The Value domain  (`serialization.py`)

`Value` is the closed domain handled by `serialize`: the dispatch chain of
`serialize` tests, in order, `None`, `bool`, `int`, `float`, `str`, `bytes`,
`list`, `tuple`, `dict`, `set`, `frozenset`, `Enum`, dataclasses, Pydantic
models, `datetime`, `date`, `time`, `timedelta`, `Decimal`, `complex`,
`UUID`.  Each Python runtime class becomes one constructor (so, in
particular, a `bool` is never an `int` here — mirroring that the serializer
tests `bool` before `int`).  `set`/`frozenset`/`dict` carry their iteration
(= insertion) order, which is the order `_serialize_sequence` /
`_serialize_dict` walk. -/

inductive Value where
  | none
  | bool (b : Bool)
  | int (n : Int)
  | float (bits : Nat)
  | str (utf8 : List Nat)
  | bytes (bs : List Nat)
  | list (xs : List Value)
  | tuple (xs : List Value)
  | dict (entries : List (Value × Value))
  | set (xs : List Value)
  | frozenset (xs : List Value)
  | dataclass (className : List Nat) (fields : List (List Nat × Value))
  | pydantic (className : List Nat) (fields : List (List Nat × Value))
  | datetime (iso : List Nat)
  | date (iso : List Nat)
  | time (iso : List Nat)
  | timedelta (microseconds : Int)
  | decimal (digits : List Nat)
  | complex (realBits imagBits : Nat)
  | uuid (bs : List Nat)
  | enum (className memberName : List Nat)

/-- Type tags of `class TypeTag` in `serialization.py`:
NONE=0x00, BOOL_TRUE=0x01, BOOL_FALSE=0x02, INT=0x03, FLOAT=0x04, STR=0x05,
BYTES=0x06, LIST=0x07, TUPLE=0x08, DICT=0x09, SET=0x0A, FROZENSET=0x0B,
DATACLASS=0x0C, DATETIME=0x0D, DATE=0x0E, TIME=0x0F, TIMEDELTA=0x10,
DECIMAL=0x11, COMPLEX=0x12, UUID=0x13, ENUM=0x14, INT_NEGATIVE=0x15,
INT_BIG=0x16, INT_BIG_NEGATIVE=0x17, PYDANTIC_MODEL=0x18.
The tag bytes below are written as literals so that the definitions compute;
this table is the key. -/
def typeTagTable : List (String × Nat) :=
  [("NONE", 0x00), ("BOOL_TRUE", 0x01), ("BOOL_FALSE", 0x02), ("INT", 0x03),
   ("FLOAT", 0x04), ("STR", 0x05), ("BYTES", 0x06), ("LIST", 0x07),
   ("TUPLE", 0x08), ("DICT", 0x09), ("SET", 0x0A), ("FROZENSET", 0x0B),
   ("DATACLASS", 0x0C), ("DATETIME", 0x0D), ("DATE", 0x0E), ("TIME", 0x0F),
   ("TIMEDELTA", 0x10), ("DECIMAL", 0x11), ("COMPLEX", 0x12), ("UUID", 0x13),
   ("ENUM", 0x14), ("INT_NEGATIVE", 0x15), ("INT_BIG", 0x16),
   ("INT_BIG_NEGATIVE", 0x17), ("PYDANTIC_MODEL", 0x18)]

/-- `_pack_length`: 4-byte unsigned big-endian (`struct.pack('>I', n)`;
Python raises for `n ≥ 2^32`, excluded by well-formedness below). -/
def packLength (n : Nat) : List Nat := natToBytesBE 4 n

/-- `struct.pack('>q', n)`: 8-byte big-endian two's complement. -/
def packQ (n : Int) : List Nat := natToBytesBE 8 (n % (2 ^ 64 : Int)).toNat

/-- Base-2 logarithm with explicit fuel (`fuel = n` always suffices, and the
recursion stops after `log2 n` steps regardless of remaining fuel). -/
def log2F : Nat → Nat → Nat
  | 0, _ => 0
  | fuel + 1, n => if 2 ≤ n then log2F fuel (n / 2) + 1 else 0

/-- Python's `int.bit_length()`. -/
def pyBitLength (n : Nat) : Nat := if n = 0 then 0 else log2F n n + 1

/-! ### The timedelta ↔ float64 seconds conversion

`_serialize_timedelta` packs `obj.total_seconds()` — in CPython
`((days*86400 + seconds)*10**6 + microseconds) / 10**6`, an int/int true
division whose result is the *correctly rounded* (nearest, ties-to-even)
float64 of the exact rational.  `_deserialize_timedelta` builds
`timedelta(seconds=f)`, which rounds `f` to whole microseconds (ties to
even).  Both directions are spelled out over integers: a positive rational
`a/10⁶` is rounded by locating its binary exponent `e`
(`2^e ≤ a/10⁶ < 2^(e+1)`, found exactly via the bit length of
`⌊a·2⁸⁰/10⁶⌋`), rounding the 53-bit mantissa half-to-even, and packing
sign/biased-exponent/fraction into the 64-bit pattern. -/

/-- `n / d` rounded to the nearest integer, ties to even (`d > 0`). -/
def roundHalfEvenDiv (n d : Nat) : Nat :=
  if 2 * (n % d) < d then n / d
  else if d < 2 * (n % d) then n / d + 1
  else if n / d % 2 = 0 then n / d else n / d + 1

/-- `⌊a·2⁸⁰/10⁶⌋`: a fixed-point scaling of `a/10⁶` precise enough to read
off the binary exponent of any representable duration. -/
def tsScaled (a : Nat) : Nat := a * 2 ^ 80 / 1000000

/-- The binary exponent `e` with `2^e ≤ a/10⁶ < 2^(e+1)` (for `a ≥ 1`). -/
def tsExp (a : Nat) : Int := (pyBitLength (tsScaled a) : Int) - 81

/-- The mantissa of `a/10⁶`: `(a/10⁶)·2^(52-e)` rounded half-to-even. -/
def tsMant (a : Nat) : Nat :=
  if tsExp a ≤ 52 then
    roundHalfEvenDiv (a * 2 ^ ((52 - tsExp a).toNat)) 1000000
  else
    roundHalfEvenDiv a (1000000 * 2 ^ ((tsExp a - 52).toNat))

/-- Exponent and mantissa of the float64 nearest `a/10⁶`, the mantissa
carry (`2^53` rounding up to the next binade) normalized away. -/
def floatEM (a : Nat) : Int × Nat :=
  if tsMant a = 2 ^ 53 then (tsExp a + 1, 2 ^ 52) else (tsExp a, tsMant a)

/-- `struct.pack('>d', total_seconds())` as the 64-bit pattern, from the
duration's exact integer microsecond count. -/
def floatBitsOfMicros (us : Int) : Nat :=
  if us = 0 then 0
  else
    (if us < 0 then 2 ^ 63 else 0)
      + ((floatEM us.natAbs).1 + 1023).toNat * 2 ^ 52
      + ((floatEM us.natAbs).2 - 2 ^ 52)

/-- `timedelta(seconds=struct.unpack('>d', ...))` as the resulting integer
microsecond count: the float64 value times 10⁶, rounded half-to-even to
whole microseconds (negative values symmetrically; the infinity/NaN
patterns, on which the constructor raises, never arise from
`serialize`). -/
def microsOfFloatBits (bits : Nat) : Int :=
  let frac := bits % 2 ^ 52
  let biasedE := bits / 2 ^ 52 % 2 ^ 11
  let mag : Nat :=
    if biasedE = 0 then roundHalfEvenDiv (frac * 1000000) (2 ^ 1074)
    else if 1075 ≤ biasedE then (2 ^ 52 + frac) * 1000000 * 2 ^ (biasedE - 1075)
    else roundHalfEvenDiv ((2 ^ 52 + frac) * 1000000) (2 ^ (1075 - biasedE))
  if bits / 2 ^ 63 = 1 then -(mag : Int) else (mag : Int)

/-- The duration round trip the program performs:
`timedelta(seconds=v.total_seconds())` at microsecond granularity. -/
def timedeltaRoundtrip (us : Int) : Int := microsOfFloatBits (floatBitsOfMicros us)

/-- `_serialize_int`: values in `[-2^63, 2^63-1]` get tag `0x03`/`0x15` and
8-byte signed big-endian payload; values outside get tag `0x16`/`0x17`, a
4-byte length and the big-endian magnitude (`abs(obj)`), the sign carried by
the tag. -/
def serializeInt (n : Int) : List Nat :=
  if -9223372036854775808 ≤ n ∧ n ≤ 9223372036854775807 then
    if 0 ≤ n then 0x03 :: packQ n
    else 0x15 :: packQ n
  else
    let absVal := n.natAbs
    let byteLength := (pyBitLength absVal + 7) / 8
    let intBytes := natToBytesBE byteLength absVal
    if 0 ≤ n then 0x16 :: (packLength byteLength ++ intBytes)
    else 0x17 :: (packLength byteLength ++ intBytes)

mutual

/-- `serialize` of `serialization.py`.  Composites follow
`_serialize_sequence` (tag, 4-byte count, children), `_serialize_dict`
(tag, 4-byte pair count, key/value encodings), `_serialize_dataclass` /
`_serialize_pydantic` (tag, length-prefixed class name, 4-byte field count,
length-prefixed field name + value per field), `_serialize_enum`
(tag, length-prefixed class name, length-prefixed member name).
`float`/`complex`/`timedelta` emit their 8-byte IEEE-754 patterns,
`datetime`/`date`/`time`/`decimal`/`str`/`bytes` a length-prefixed payload,
`uuid` its 16 raw bytes. -/
def serialize : Value → List Nat
  | .none => [0x00]
  | .bool b => [if b then 0x01 else 0x02]
  | .int n => serializeInt n
  | .float bits => 0x04 :: natToBytesBE 8 bits
  | .str utf8 => 0x05 :: (packLength utf8.length ++ utf8)
  | .bytes bs => 0x06 :: (packLength bs.length ++ bs)
  | .list xs => 0x07 :: (packLength xs.length ++ serializeList xs)
  | .tuple xs => 0x08 :: (packLength xs.length ++ serializeList xs)
  | .dict es => 0x09 :: (packLength es.length ++ serializeDict es)
  | .set xs => 0x0A :: (packLength xs.length ++ serializeList xs)
  | .frozenset xs => 0x0B :: (packLength xs.length ++ serializeList xs)
  | .dataclass cn fs =>
      0x0C :: (packLength cn.length ++ cn ++ packLength fs.length ++ serializeFields fs)
  | .pydantic cn fs =>
      0x18 :: (packLength cn.length ++ cn ++ packLength fs.length ++ serializeFields fs)
  | .datetime iso => 0x0D :: (packLength iso.length ++ iso)
  | .date iso => 0x0E :: (packLength iso.length ++ iso)
  | .time iso => 0x0F :: (packLength iso.length ++ iso)
  | .timedelta us => 0x10 :: natToBytesBE 8 (floatBitsOfMicros us)
  | .decimal ds => 0x11 :: (packLength ds.length ++ ds)
  | .complex r i => 0x12 :: (natToBytesBE 8 r ++ natToBytesBE 8 i)
  | .uuid bs => 0x13 :: bs
  | .enum cn mn =>
      0x14 :: (packLength cn.length ++ cn ++ packLength mn.length ++ mn)

/-- The `for item in items: result.extend(serialize(item))` loop of
`_serialize_sequence`. -/
def serializeList : List Value → List Nat
  | [] => []
  | x :: xs => serialize x ++ serializeList xs

/-- The key/value loop of `_serialize_dict`. -/
def serializeDict : List (Value × Value) → List Nat
  | [] => []
  | (k, v) :: es => serialize k ++ serialize v ++ serializeDict es

/-- The field loop of `_serialize_dataclass` / `_serialize_pydantic`:
length-prefixed field name, then the serialized field value. -/
def serializeFields : List (List Nat × Value) → List Nat
  | [] => []
  | (fn, v) :: fs => packLength fn.length ++ fn ++ serialize v ++ serializeFields fs

end

/-! ## Expected types (`expected_type` parameters)

`deserialize` and `convert_to_type` receive an optional Python type object.
`Ty` models the shapes those functions actually inspect via
`get_origin`/`get_args`/`issubclass`: `Any`, the primitive classes,
`Optional[T]` (a `Union` with a single non-`None` member), parameterized
containers, `Enum` subclasses (class name plus member names, as looked up by
`expected_type[member_name]`), dataclasses and Pydantic models (class name
plus `get_type_hints` as a field-name → type table). -/

inductive Ty where
  | any
  | bool
  | int
  | float
  | str
  | bytes
  | opt (t : Ty)
  | list (t : Ty)
  | tuple (ts : List Ty)
  | tupleEll (t : Ty)
  | dict (key val : Ty)
  | set (t : Ty)
  | frozenset (t : Ty)
  | enum (className : List Nat) (members : List (List Nat))
  | dataclass (className : List Nat) (fields : List (List Nat × Ty))
  | pydantic (className : List Nat) (fields : List (List Nat × Ty))

/-- Python `dict.get`: first (= only, for genuine dict states) binding of the
key in an insertion-ordered association list. -/
def pyGet {κ α : Type} [BEq κ] (m : List (κ × α)) (k : κ) : Option α :=
  (m.find? (fun p => p.1 == k)).map (·.2)

/-- Python `d[k] = v`: replace in place if the key is present, else append. -/
def pySet {κ α : Type} [BEq κ] : List (κ × α) → κ → α → List (κ × α)
  | [], k, v => [(k, v)]
  | (k', v') :: rest, k, v =>
    if k' == k then (k, v) :: rest else (k', v') :: pySet rest k v

/-- Python `d.pop(k, None)`: remove the binding if present. -/
def pyPop {κ α : Type} [BEq κ] : List (κ × α) → κ → List (κ × α)
  | [], _ => []
  | (k', v') :: rest, k =>
    if k' == k then rest else (k', v') :: pyPop rest k

/-- `_deserialize_sequence`'s element-type extraction: `get_origin` in
`(list, set, frozenset, tuple)` and `get_args` nonempty give `args[0]`
(note: `args[0]` even for a fixed-arity `Tuple[X, Y]`). -/
def elemTypeForSeq : Option Ty → Option Ty
  | some (.list e) => some e
  | some (.set e) => some e
  | some (.frozenset e) => some e
  | some (.tupleEll e) => some e
  | some (.tuple (e :: _)) => some e
  | _ => Option.none

/-- `_deserialize_dict`'s key-type extraction (`get_origin is dict`). -/
def keyTypeForDict : Option Ty → Option Ty
  | some (.dict k _) => some k
  | _ => Option.none

/-- `_deserialize_dict`'s value-type extraction. -/
def valTypeForDict : Option Ty → Option Ty
  | some (.dict _ v) => some v
  | _ => Option.none

/-- `_deserialize_dataclass`: `get_type_hints(expected_type)` when the
expected type is a dataclass, else the empty table. -/
def dataclassFieldTypes : Option Ty → List (List Nat × Ty)
  | some (.dataclass _ fs) => fs
  | _ => []

/-- `_deserialize_pydantic`: field table when the expected type is a
Pydantic model class. -/
def pydanticFieldTypes : Option Ty → List (List Nat × Ty)
  | some (.pydantic _ fs) => fs
  | _ => []

/-- `_unpack_length`: `struct.unpack('>I', data[:4])`, raising when fewer
than 4 bytes are available; returns `(length, 4)`. -/
def unpackLength (data : List Nat) : Option (Nat × Nat) :=
  if 4 ≤ data.length then some (bytesToNatBE (data.take 4), 4) else Option.none

/-- `struct.unpack('>q', data[:8])`: 8-byte big-endian two's complement,
raising when fewer than 8 bytes are available. -/
def unpackQ (data : List Nat) : Option Int :=
  if 8 ≤ data.length then
    some (if bytesToNatBE (data.take 8) < 2 ^ 63 then (bytesToNatBE (data.take 8) : Int)
          else (bytesToNatBE (data.take 8) : Int) - 2 ^ 64)
  else Option.none

def enumKey : List Nat := asciiBytes "__enum__"

def memberKey : List Nat := asciiBytes "__member__"

/-- The `for _ in range(length)` loop of `_deserialize_sequence`: read
`count` values with the reader `rd`, each starting where the previous one's
consumed count ended; returns the items and the total consumed count. -/
def readSeq (rd : List Nat → Option (Value × Nat)) :
    Nat → List Nat → Option (List Value × Nat)
  | 0, _ => some ([], 0)
  | count + 1, data => do
    let (item, c) ← rd data
    let (items, c') ← readSeq rd count (data.drop c)
    some (item :: items, c + c')

/-- The key/value loop of `_deserialize_dict`. -/
def readPairs (rdK rdV : List Nat → Option (Value × Nat)) :
    Nat → List Nat → Option (List (Value × Value) × Nat)
  | 0, _ => some ([], 0)
  | count + 1, data => do
    let (k, ck) ← rdK data
    let (v, cv) ← rdV (data.drop ck)
    let (ps, c') ← readPairs rdK rdV count (data.drop (ck + cv))
    some ((k, v) :: ps, ck + cv + c')

/-- The field loop of `_deserialize_dataclass` / `_deserialize_pydantic`:
4-byte name length, name bytes, then the value read with
`field_types.get(field_name)` as expected type. -/
def readFields (rd : Option Ty → List Nat → Option (Value × Nat))
    (ftys : List (List Nat × Ty)) :
    Nat → List Nat → Option (List (List Nat × Value) × Nat)
  | 0, _ => some ([], 0)
  | count + 1, data => do
    let (fnameLen, _) ← unpackLength data
    let fname := (data.drop 4).take fnameLen
    let (v, c) ← rd (pyGet ftys fname) (data.drop (4 + fnameLen))
    let (fs, c') ← readFields rd ftys count (data.drop (4 + fnameLen + c))
    some ((fname, v) :: fs, 4 + fnameLen + c + c')

/-- `deserialize` of `serialization.py`, with an explicit fuel argument
bounding the nesting depth (the Python recursion needs no fuel; one level of
nesting consumes at least one byte of input, so `data.length` fuel always
suffices — `deserialize` below passes exactly that).  Branches follow the
`if tag == TypeTag...` chain of the source; offsets are `1` for the tag plus
the amounts the source adds to `offset`.  Failure (`ValueError` on empty
input or an unknown tag, `struct.error` on a short fixed-width read, the
`ValueError` of `UUID(bytes=...)` on fewer than 16 bytes, the `KeyError` of
`expected_type[member_name]`) is `Option.none`.  Where the source slices
(`data[offset:offset+length]`) a short slice silently truncates, and so does
`List.take` here. -/
def deserializeF : Nat → List Nat → Option Ty → Option (Value × Nat)
  | 0, _, _ => Option.none
  | fuel + 1, data, expectedType =>
    match data with
    | [] => Option.none
    | tag :: rest =>
      match tag with
      | 0x00 => some (.none, 1)
      | 0x01 => some (.bool true, 1)
      | 0x02 => some (.bool false, 1)
      | 0x03 => do
        let v ← unpackQ rest
        some (.int v, 9)
      | 0x15 => do
        let v ← unpackQ rest
        some (.int v, 9)
      | 0x16 => do
        let (len, ls) ← unpackLength rest
        some (.int (Int.ofNat (bytesToNatBE ((rest.drop ls).take len))), 1 + ls + len)
      | 0x17 => do
        let (len, ls) ← unpackLength rest
        some (.int (-Int.ofNat (bytesToNatBE ((rest.drop ls).take len))), 1 + ls + len)
      | 0x04 =>
        if 8 ≤ rest.length then some (.float (bytesToNatBE (rest.take 8)), 9)
        else Option.none
      | 0x05 => do
        let (len, ls) ← unpackLength rest
        some (.str ((rest.drop ls).take len), 1 + ls + len)
      | 0x06 => do
        let (len, ls) ← unpackLength rest
        some (.bytes ((rest.drop ls).take len), 1 + ls + len)
      | 0x07 => do
        let (count, ls) ← unpackLength rest
        let (items, c) ←
          readSeq (fun d => deserializeF fuel d (elemTypeForSeq expectedType)) count
            (rest.drop ls)
        some (.list items, 1 + ls + c)
      | 0x08 => do
        let (count, ls) ← unpackLength rest
        let (items, c) ←
          readSeq (fun d => deserializeF fuel d (elemTypeForSeq expectedType)) count
            (rest.drop ls)
        some (.tuple items, 1 + ls + c)
      | 0x09 => do
        let (count, ls) ← unpackLength rest
        let (ps, c) ←
          readPairs (fun d => deserializeF fuel d (keyTypeForDict expectedType))
            (fun d => deserializeF fuel d (valTypeForDict expectedType)) count
            (rest.drop ls)
        some (.dict ps, 1 + ls + c)
      | 0x0A => do
        let (count, ls) ← unpackLength rest
        let (items, c) ←
          readSeq (fun d => deserializeF fuel d (elemTypeForSeq expectedType)) count
            (rest.drop ls)
        some (.set items, 1 + ls + c)
      | 0x0B => do
        let (count, ls) ← unpackLength rest
        let (items, c) ←
          readSeq (fun d => deserializeF fuel d (elemTypeForSeq expectedType)) count
            (rest.drop ls)
        some (.frozenset items, 1 + ls + c)
      | 0x0C => do
        let (nameLen, _) ← unpackLength rest
        let _className := (rest.drop 4).take nameLen
        let afterName := rest.drop (4 + nameLen)
        let (fieldCount, _) ← unpackLength afterName
        let (fields, c) ←
          readFields (fun e d => deserializeF fuel d e)
            (dataclassFieldTypes expectedType) fieldCount (afterName.drop 4)
        match expectedType with
        | some (.dataclass cn _) => some (.dataclass cn fields, 1 + 4 + nameLen + 4 + c)
        | _ =>
          -- no expected dataclass: return the plain field mapping
          -- (`field_values` dict; `class_name` is read but unused)
          some (.dict (fields.map (fun p => (Value.str p.1, p.2))),
            1 + 4 + nameLen + 4 + c)
      | 0x18 => do
        let (nameLen, _) ← unpackLength rest
        let _className := (rest.drop 4).take nameLen
        let afterName := rest.drop (4 + nameLen)
        let (fieldCount, _) ← unpackLength afterName
        let (fields, c) ←
          readFields (fun e d => deserializeF fuel d e)
            (pydanticFieldTypes expectedType) fieldCount (afterName.drop 4)
        match expectedType with
        | some (.pydantic cn _) => some (.pydantic cn fields, 1 + 4 + nameLen + 4 + c)
        | _ =>
          some (.dict (fields.map (fun p => (Value.str p.1, p.2))),
            1 + 4 + nameLen + 4 + c)
      | 0x0D => do
        let (len, ls) ← unpackLength rest
        some (.datetime ((rest.drop ls).take len), 1 + ls + len)
      | 0x0E => do
        let (len, ls) ← unpackLength rest
        some (.date ((rest.drop ls).take len), 1 + ls + len)
      | 0x0F => do
        let (len, ls) ← unpackLength rest
        some (.time ((rest.drop ls).take len), 1 + ls + len)
      | 0x10 =>
        if 8 ≤ rest.length then
          some (.timedelta (microsOfFloatBits (bytesToNatBE (rest.take 8))), 9)
        else Option.none
      | 0x11 => do
        let (len, ls) ← unpackLength rest
        some (.decimal ((rest.drop ls).take len), 1 + ls + len)
      | 0x12 =>
        if 16 ≤ rest.length then
          some (.complex (bytesToNatBE (rest.take 8)) (bytesToNatBE ((rest.drop 8).take 8)), 17)
        else Option.none
      | 0x13 =>
        if 16 ≤ rest.length then some (.uuid (rest.take 16), 17)
        else Option.none
      | 0x14 => do
        let (cnameLen, _) ← unpackLength rest
        let className := (rest.drop 4).take cnameLen
        let afterC := rest.drop (4 + cnameLen)
        let (mnameLen, _) ← unpackLength afterC
        let memberName := (afterC.drop 4).take mnameLen
        match expectedType with
        | some (.enum ecn members) =>
          -- `expected_type[member_name]`: the member of the *expected* class
          if members.contains memberName then
            some (.enum ecn memberName, 1 + 4 + cnameLen + 4 + mnameLen)
          else Option.none
        | _ =>
          some (.dict [(Value.str enumKey, Value.str className),
                       (Value.str memberKey, Value.str memberName)],
            1 + 4 + cnameLen + 4 + mnameLen)
      | _ => Option.none

/-- `deserialize(data, expected_type)`; the Python default for
`expected_type` is `None`.  `data.length` fuel always suffices because every
nesting level of the recursion consumes at least the one tag byte of its
prefix. -/
def deserialize (data : List Nat) (expectedType : Option Ty) : Option (Value × Nat) :=
  deserializeF data.length data expectedType

/-! ## Well-formed values and the schema-less decoded form

`wfValue` delimits the values a Python process can actually hold and
serialize without `struct.pack` raising: every byte is a byte, every length
and count fits the 4-byte length field, bit patterns fit 64 bits, a UUID has
exactly 16 bytes, and a big integer's magnitude fits the 4-byte byte-length
field. -/

def wfBytes (bs : List Nat) : Bool :=
  decide (bs.length < 2 ^ 32) && bs.all (fun b => b < 256)

mutual

def wfValue : Value → Bool
  | .none => true
  | .bool _ => true
  | .int n => decide ((pyBitLength n.natAbs + 7) / 8 < 2 ^ 32)
  | .float bits => decide (bits < 2 ^ 64)
  | .str s => wfBytes s
  | .bytes bs => wfBytes bs
  | .list xs => decide (xs.length < 2 ^ 32) && wfList xs
  | .tuple xs => decide (xs.length < 2 ^ 32) && wfList xs
  | .dict es => decide (es.length < 2 ^ 32) && wfPairs es
  | .set xs => decide (xs.length < 2 ^ 32) && wfList xs
  | .frozenset xs => decide (xs.length < 2 ^ 32) && wfList xs
  | .dataclass cn fs => wfBytes cn && decide (fs.length < 2 ^ 32) && wfFields fs
  | .pydantic cn fs => wfBytes cn && decide (fs.length < 2 ^ 32) && wfFields fs
  | .datetime iso => wfBytes iso
  | .date iso => wfBytes iso
  | .time iso => wfBytes iso
  | .timedelta us => decide (us.natAbs < 86400 * 1000000000 * 1000000)
  | .decimal ds => wfBytes ds
  | .complex r i => decide (r < 2 ^ 64) && decide (i < 2 ^ 64)
  | .uuid bs => decide (bs.length = 16) && bs.all (fun b => b < 256)
  | .enum cn mn => wfBytes cn && wfBytes mn

def wfList : List Value → Bool
  | [] => true
  | x :: xs => wfValue x && wfList xs

def wfPairs : List (Value × Value) → Bool
  | [] => true
  | (k, v) :: es => wfValue k && wfValue v && wfPairs es

def wfFields : List (List Nat × Value) → Bool
  | [] => true
  | (fn, v) :: fs => wfBytes fn && wfValue v && wfFields fs

end

mutual

/-- What `deserialize(serialize(v))` yields when no expected type is
supplied: containers keep their elements (in order) with this map applied,
an enum member becomes the `{"__enum__": class, "__member__": member}`
sentinel mapping, and a dataclass or Pydantic model becomes its plain
field-name → value mapping. Everything else decodes to itself. -/
def decodedForm : Value → Value
  | .timedelta us => .timedelta (timedeltaRoundtrip us)
  | .list xs => .list (decodedFormList xs)
  | .tuple xs => .tuple (decodedFormList xs)
  | .dict es => .dict (decodedFormPairs es)
  | .set xs => .set (decodedFormList xs)
  | .frozenset xs => .frozenset (decodedFormList xs)
  | .dataclass _ fs => .dict (decodedFormFields fs)
  | .pydantic _ fs => .dict (decodedFormFields fs)
  | .enum cn mn => .dict [(Value.str enumKey, Value.str cn),
                          (Value.str memberKey, Value.str mn)]
  | v => v

def decodedFormList : List Value → List Value
  | [] => []
  | x :: xs => decodedForm x :: decodedFormList xs

def decodedFormPairs : List (Value × Value) → List (Value × Value)
  | [] => []
  | (k, v) :: es => (decodedForm k, decodedForm v) :: decodedFormPairs es

def decodedFormFields : List (List Nat × Value) → List (Value × Value)
  | [] => []
  | (fn, v) :: fs => (Value.str fn, decodedForm v) :: decodedFormFields fs

end

/-! ## Round-trip lemmas -/

theorem serializeInt_length_pos (n : Int) : 0 < (serializeInt n).length := by
  unfold serializeInt; split <;> split <;> simp

theorem serialize_length_pos (v : Value) : 0 < (serialize v).length := by
  cases v <;> simp [serialize, serializeInt_length_pos]

theorem unpackLength_packLength (n : Nat) (tail : List Nat) (h : n < 2 ^ 32) :
    unpackLength (packLength n ++ tail) = some (n, 4) := by
  unfold unpackLength packLength
  rw [if_pos (by simp)]
  rw [take_natToBytesBE_append, bytesToNatBE_natToBytesBE_of_lt]
  rw [pow_256_eq_pow_2]
  omega

theorem drop_packLength (n : Nat) (tail : List Nat) :
    (packLength n ++ tail).drop 4 = tail :=
  drop_natToBytesBE_append 4 n tail

theorem take_length_append {α : Type} (a b : List α) (w : Nat) (h : a.length = w) :
    (a ++ b).take w = a := by
  subst h; exact List.take_left a b

theorem drop_length_append {α : Type} (a b : List α) (w : Nat) (h : a.length = w) :
    (a ++ b).drop w = b := by
  subst h; exact List.drop_left a b

theorem lt_two_pow_log2F : ∀ (fuel n : Nat), n ≤ fuel → n < 2 ^ (log2F fuel n + 1) := by
  intro fuel
  induction fuel with
  | zero => intro n h; interval_cases n; simp [log2F]
  | succ fuel ih =>
    intro n h
    unfold log2F
    by_cases h2 : 2 ≤ n
    · rw [if_pos h2]
      have := ih (n / 2) (by omega)
      have hpow : (2 : Nat) ^ (log2F fuel (n / 2) + 1 + 1)
          = 2 * 2 ^ (log2F fuel (n / 2) + 1) := by ring
      omega
    · rw [if_neg h2]
      omega

theorem two_pow_log2F_le : ∀ (fuel n : Nat), n ≤ fuel → 1 ≤ n → 2 ^ log2F fuel n ≤ n := by
  intro fuel
  induction fuel with
  | zero => intro n h h1; omega
  | succ fuel ih =>
    intro n h h1
    unfold log2F
    by_cases h2 : 2 ≤ n
    · rw [if_pos h2]
      have := ih (n / 2) (by omega) (by omega)
      have hpow : (2 : Nat) ^ (log2F fuel (n / 2) + 1)
          = 2 * 2 ^ (log2F fuel (n / 2)) := by ring
      omega
    · rw [if_neg h2]
      simpa using h1

theorem lt_two_pow_pyBitLength (n : Nat) : n < 2 ^ pyBitLength n := by
  rcases Nat.eq_zero_or_pos n with h0 | hpos
  · subst h0; simp [pyBitLength]
  · unfold pyBitLength
    rw [if_neg (by omega)]
    exact lt_two_pow_log2F n n le_rfl

theorem pyBitLength_le_of_lt {n k : Nat} (h : n < 2 ^ k) : pyBitLength n ≤ k := by
  by_contra hc
  push_neg at hc
  rcases Nat.eq_zero_or_pos n with h0 | hpos
  · subst h0; simp [pyBitLength] at hc
  · unfold pyBitLength at hc
    rw [if_neg (by omega : ¬n = 0)] at hc
    have hk : 2 ^ k ≤ 2 ^ log2F n n :=
      Nat.pow_le_pow_right (by omega) (by omega)
    have := two_pow_log2F_le n n le_rfl hpos
    omega

theorem roundHalfEvenDiv_le (n d : Nat) : roundHalfEvenDiv n d ≤ n / d + 1 := by
  unfold roundHalfEvenDiv; split_ifs <;> omega

/-- The packed `total_seconds()` bit pattern of any duration the Python
`timedelta` type can hold fits a `>d` field: it is below `2^64`. -/
theorem floatBitsOfMicros_lt (us : Int)
    (h : us.natAbs < 86400 * 1000000000 * 1000000) :
    floatBitsOfMicros us < 2 ^ 64 := by
  unfold floatBitsOfMicros
  by_cases h0 : us = 0
  · rw [if_pos h0]; norm_num
  rw [if_neg h0]
  have ha1 : 1 ≤ us.natAbs := by
    have := Int.natAbs_pos.mpr h0; omega
  have hS : tsScaled us.natAbs < 2 ^ 128 := by
    unfold tsScaled
    apply Nat.div_lt_of_lt_mul
    calc us.natAbs * 2 ^ 80
        < (86400 * 1000000000 * 1000000) * 2 ^ 80 := by
          exact Nat.mul_lt_mul_of_lt_of_le h le_rfl (by norm_num)
      _ ≤ 2 ^ 128 * 1000000 := by norm_num
  have hL : pyBitLength (tsScaled us.natAbs) ≤ 128 := pyBitLength_le_of_lt hS
  have he : tsExp us.natAbs ≤ 47 := by
    unfold tsExp; omega
  have hSX : us.natAbs * 2 ^ 80
      < 2 ^ pyBitLength (tsScaled us.natAbs) * 1000000 := by
    have := lt_two_pow_pyBitLength (tsScaled us.natAbs)
    unfold tsScaled at this
    exact (Nat.div_lt_iff_lt_mul (by norm_num)).mp this
  have ht : (52 - tsExp us.natAbs).toNat
      = 133 - pyBitLength (tsScaled us.natAbs) := by
    unfold tsExp; omega
  have hX : us.natAbs * 2 ^ (133 - pyBitLength (tsScaled us.natAbs))
      < 2 ^ 53 * 1000000 := by
    set L := pyBitLength (tsScaled us.natAbs) with hLdef
    have h1 : us.natAbs * 2 ^ 80 * 2 ^ (133 - L) < 2 ^ 133 * 1000000 := by
      calc us.natAbs * 2 ^ 80 * 2 ^ (133 - L)
          < 2 ^ L * 1000000 * 2 ^ (133 - L) :=
            Nat.mul_lt_mul_of_lt_of_le hSX le_rfl (Nat.pos_pow_of_pos _ (by omega))
        _ = 2 ^ (L + (133 - L)) * 1000000 := by rw [mul_right_comm, ← pow_add]
        _ = 2 ^ 133 * 1000000 := by rw [show L + (133 - L) = 133 by omega]
    have h2 : us.natAbs * 2 ^ (133 - L) * 2 ^ 80 < 2 ^ 53 * 1000000 * 2 ^ 80 := by
      calc us.natAbs * 2 ^ (133 - L) * 2 ^ 80
          = us.natAbs * 2 ^ 80 * 2 ^ (133 - L) := by ring
        _ < 2 ^ 133 * 1000000 := h1
        _ = 2 ^ 53 * 1000000 * 2 ^ 80 := by
            rw [show (133 : Nat) = 53 + 80 from rfl, pow_add]; ring
    exact Nat.lt_of_mul_lt_mul_right h2
  have hm : tsMant us.natAbs ≤ 2 ^ 53 := by
    unfold tsMant
    rw [if_pos (by omega : tsExp us.natAbs ≤ 52), ht]
    have hq : us.natAbs * 2 ^ (133 - pyBitLength (tsScaled us.natAbs)) / 1000000
        < 2 ^ 53 := (Nat.div_lt_iff_lt_mul (by norm_num)).mpr hX
    have := roundHalfEvenDiv_le
      (us.natAbs * 2 ^ (133 - pyBitLength (tsScaled us.natAbs))) 1000000
    omega
  have hE : (floatEM us.natAbs).1 ≤ 48 := by
    unfold floatEM; split_ifs <;> simp <;> omega
  have hM : (floatEM us.natAbs).2 < 2 ^ 53 + 1 := by
    unfold floatEM; split_ifs with hc <;> simp
    omega
  have hEnat : ((floatEM us.natAbs).1 + 1023).toNat ≤ 1071 := by omega
  split_ifs <;> omega

theorem natAbs_lt_of_byteLength {n : Nat} :
    n < 256 ^ ((pyBitLength n + 7) / 8) := by
  rcases Nat.eq_zero_or_pos n with h0 | hpos
  · subst h0; simp [pyBitLength]
  · have h1 : n < 2 ^ pyBitLength n := by
      unfold pyBitLength
      rw [if_neg (by omega)]
      exact lt_two_pow_log2F n n le_rfl
    calc n < 2 ^ pyBitLength n := h1
      _ ≤ 2 ^ (8 * ((pyBitLength n + 7) / 8)) := Nat.pow_le_pow_right (by omega) (by omega)
      _ = 256 ^ ((pyBitLength n + 7) / 8) := (pow_256_eq_pow_2 _).symm

theorem unpackQ_packQ (n : Int) (rest : List Nat)
    (h1 : -9223372036854775808 ≤ n) (h2 : n ≤ 9223372036854775807) :
    unpackQ (packQ n ++ rest) = some n := by
  have h64 : ((2 : Int) ^ 64) = 18446744073709551616 := by norm_num
  have hmodnn : (0 : Int) ≤ n % 2 ^ 64 := by rw [h64]; omega
  have hmn : ((n % 2 ^ 64).toNat : Int) = n % 2 ^ 64 := Int.toNat_of_nonneg hmodnn
  have hlt : (n % 2 ^ 64).toNat < 256 ^ 8 := by
    rw [pow_256_eq_pow_2]
    have : n % 2 ^ 64 < 2 ^ 64 := by rw [h64]; omega
    omega
  unfold unpackQ packQ
  rw [if_pos (by simp), take_natToBytesBE_append, bytesToNatBE_natToBytesBE_of_lt hlt]
  congr 1
  by_cases hs : 0 ≤ n
  · have hmod : n % 2 ^ 64 = n := by rw [h64]; omega
    rw [if_pos (by omega)]
    omega
  · have hmod : n % 2 ^ 64 = n + 2 ^ 64 := by rw [h64]; omega
    rw [if_neg (by omega)]
    omega

/-- `deserialize(serialize(n))` for integers: both the small two's-complement
form and the big sign-and-magnitude form read back the original integer. -/
theorem deserializeF_serializeInt (n : Int) (rest : List Nat) (fuel : Nat)
    (hw : (pyBitLength n.natAbs + 7) / 8 < 2 ^ 32) :
    deserializeF (fuel + 1) (serializeInt n ++ rest) Option.none
      = some (.int n, (serializeInt n).length) := by
  by_cases hr : -9223372036854775808 ≤ n ∧ n ≤ 9223372036854775807
  · have hq := unpackQ_packQ n rest hr.1 hr.2
    unfold serializeInt
    rw [if_pos hr]
    by_cases hs : 0 ≤ n
    · rw [if_pos hs]
      simp only [List.cons_append, deserializeF, hq, Option.bind_eq_bind,
        Option.some_bind]
      simp [packQ]
    · rw [if_neg hs]
      simp only [List.cons_append, deserializeF, hq, Option.bind_eq_bind,
        Option.some_bind]
      simp [packQ]
  · -- big form: tag 0x16 / 0x17, 4-byte byte count, magnitude bytes
    have hbig := natAbs_lt_of_byteLength (n := n.natAbs)
    have hval : bytesToNatBE
        (((packLength ((pyBitLength n.natAbs + 7) / 8)
            ++ (natToBytesBE ((pyBitLength n.natAbs + 7) / 8) n.natAbs ++ rest)).drop 4).take
          ((pyBitLength n.natAbs + 7) / 8)) = n.natAbs := by
      rw [drop_packLength, take_natToBytesBE_append,
        bytesToNatBE_natToBytesBE_of_lt hbig]
    unfold serializeInt
    rw [if_neg hr]
    by_cases hs : 0 ≤ n
    · rw [if_pos hs]
      simp only [List.cons_append, deserializeF, List.append_assoc]
      rw [unpackLength_packLength _ _ hw]
      simp only [Option.bind_eq_bind, Option.some_bind, hval]
      have hofnat : Int.ofNat n.natAbs = n := by
        rw [Int.ofNat_eq_coe]; omega
      simp only [hofnat, packLength, List.length_cons, List.length_append,
        natToBytesBE_length, Option.some.injEq, Prod.mk.injEq]
      exact ⟨trivial, by omega⟩
    · rw [if_neg hs]
      simp only [List.cons_append, deserializeF, List.append_assoc]
      rw [unpackLength_packLength _ _ hw]
      simp only [Option.bind_eq_bind, Option.some_bind, hval]
      have hofnat : -Int.ofNat n.natAbs = n := by
        rw [Int.ofNat_eq_coe]; omega
      simp only [hofnat, packLength, List.length_cons, List.length_append,
        natToBytesBE_length, Option.some.injEq, Prod.mk.injEq]
      exact ⟨trivial, by omega⟩

theorem wfBytes_length {bs : List Nat} (h : wfBytes bs = true) : bs.length < 2 ^ 32 := by
  simp [wfBytes] at h; exact h.1

theorem take_packLength_payload (bs tail : List Nat) :
    ((packLength bs.length ++ (bs ++ tail)).drop 4).take bs.length = bs := by
  rw [drop_packLength]
  exact take_length_append bs tail _ rfl

theorem drop_packLength_payload (bs tail : List Nat) :
    (packLength bs.length ++ (bs ++ tail)).drop (4 + bs.length) = tail := by
  rw [← List.append_assoc]
  exact drop_length_append _ _ _ (by simp [packLength])

theorem map_decodedFields (fs : List (List Nat × Value)) :
    (fs.map (fun p => (p.1, decodedForm p.2))).map (fun p => (Value.str p.1, p.2))
      = decodedFormFields fs := by
  induction fs with
  | nil => rfl
  | cons e fs ih => cases e; simp [decodedFormFields, ih]

mutual

/-- Schema-less round trip: decoding the serialized form of a well-formed
value, with arbitrary trailing bytes, returns its decoded form and consumes
exactly the serialized length. -/
theorem deserializeF_serialize (v : Value) (rest : List Nat) (fuel : Nat)
    (hw : wfValue v = true) (hf : (serialize v).length ≤ fuel) :
    deserializeF fuel (serialize v ++ rest) Option.none
      = some (decodedForm v, (serialize v).length) := by
  cases fuel with
  | zero =>
    have := serialize_length_pos v
    omega
  | succ fuel =>
  match v with
  | .none => simp [serialize, deserializeF, decodedForm]
  | .bool b => cases b <;> simp [serialize, deserializeF, decodedForm]
  | .int n =>
    rw [show serialize (.int n) = serializeInt n from rfl,
      deserializeF_serializeInt n rest fuel (by simpa [wfValue] using hw)]
    simp [decodedForm]
  | .float bits =>
    have hb : bits < 256 ^ 8 := by
      rw [pow_256_eq_pow_2]; simpa [wfValue] using hw
    simp only [serialize, List.cons_append, deserializeF]
    rw [if_pos (by simp), take_natToBytesBE_append, bytesToNatBE_natToBytesBE_of_lt hb]
    simp [decodedForm]
  | .str s =>
    have hlen : s.length < 2 ^ 32 := wfBytes_length (by simpa [wfValue] using hw)
    simp only [serialize, List.cons_append, List.append_assoc, deserializeF]
    rw [unpackLength_packLength _ _ hlen]
    simp only [Option.bind_eq_bind, Option.some_bind, take_packLength_payload]
    simp only [decodedForm, Option.some.injEq, Prod.mk.injEq, List.length_cons,
      List.length_append, packLength, natToBytesBE_length]
    exact ⟨trivial, by omega⟩
  | .bytes bs =>
    have hlen : bs.length < 2 ^ 32 := wfBytes_length (by simpa [wfValue] using hw)
    simp only [serialize, List.cons_append, List.append_assoc, deserializeF]
    rw [unpackLength_packLength _ _ hlen]
    simp only [Option.bind_eq_bind, Option.some_bind, take_packLength_payload]
    simp only [decodedForm, Option.some.injEq, Prod.mk.injEq, List.length_cons,
      List.length_append, packLength, natToBytesBE_length]
    exact ⟨trivial, by omega⟩
  | .list xs =>
    have hw' : xs.length < 2 ^ 32 ∧ wfList xs = true := by simpa [wfValue] using hw
    have hlen : (serializeList xs).length ≤ fuel := by
      simp [serialize, packLength] at hf; omega
    simp only [serialize, List.cons_append, List.append_assoc, deserializeF]
    rw [unpackLength_packLength _ _ hw'.1]
    simp only [Option.bind_eq_bind, Option.some_bind, drop_packLength]
    simp only [show elemTypeForSeq Option.none = Option.none from rfl]
    rw [readSeq_serializeList xs rest fuel hw'.2 hlen]
    simp only [Option.some_bind, decodedForm, Option.some.injEq, Prod.mk.injEq,
      List.length_cons, List.length_append, packLength, natToBytesBE_length]
    exact ⟨trivial, by omega⟩
  | .tuple xs =>
    have hw' : xs.length < 2 ^ 32 ∧ wfList xs = true := by simpa [wfValue] using hw
    have hlen : (serializeList xs).length ≤ fuel := by
      simp [serialize, packLength] at hf; omega
    simp only [serialize, List.cons_append, List.append_assoc, deserializeF]
    rw [unpackLength_packLength _ _ hw'.1]
    simp only [Option.bind_eq_bind, Option.some_bind, drop_packLength]
    simp only [show elemTypeForSeq Option.none = Option.none from rfl]
    rw [readSeq_serializeList xs rest fuel hw'.2 hlen]
    simp only [Option.some_bind, decodedForm, Option.some.injEq, Prod.mk.injEq,
      List.length_cons, List.length_append, packLength, natToBytesBE_length]
    exact ⟨trivial, by omega⟩
  | .dict es =>
    have hw' : es.length < 2 ^ 32 ∧ wfPairs es = true := by simpa [wfValue] using hw
    have hlen : (serializeDict es).length ≤ fuel := by
      simp [serialize, packLength] at hf; omega
    simp only [serialize, List.cons_append, List.append_assoc, deserializeF]
    rw [unpackLength_packLength _ _ hw'.1]
    simp only [Option.bind_eq_bind, Option.some_bind, drop_packLength]
    simp only [show keyTypeForDict Option.none = Option.none from rfl,
      show valTypeForDict Option.none = Option.none from rfl]
    rw [readPairs_serializeDict es rest fuel hw'.2 hlen]
    simp only [Option.some_bind, decodedForm, Option.some.injEq, Prod.mk.injEq,
      List.length_cons, List.length_append, packLength, natToBytesBE_length]
    exact ⟨trivial, by omega⟩
  | .set xs =>
    have hw' : xs.length < 2 ^ 32 ∧ wfList xs = true := by simpa [wfValue] using hw
    have hlen : (serializeList xs).length ≤ fuel := by
      simp [serialize, packLength] at hf; omega
    simp only [serialize, List.cons_append, List.append_assoc, deserializeF]
    rw [unpackLength_packLength _ _ hw'.1]
    simp only [Option.bind_eq_bind, Option.some_bind, drop_packLength]
    simp only [show elemTypeForSeq Option.none = Option.none from rfl]
    rw [readSeq_serializeList xs rest fuel hw'.2 hlen]
    simp only [Option.some_bind, decodedForm, Option.some.injEq, Prod.mk.injEq,
      List.length_cons, List.length_append, packLength, natToBytesBE_length]
    exact ⟨trivial, by omega⟩
  | .frozenset xs =>
    have hw' : xs.length < 2 ^ 32 ∧ wfList xs = true := by simpa [wfValue] using hw
    have hlen : (serializeList xs).length ≤ fuel := by
      simp [serialize, packLength] at hf; omega
    simp only [serialize, List.cons_append, List.append_assoc, deserializeF]
    rw [unpackLength_packLength _ _ hw'.1]
    simp only [Option.bind_eq_bind, Option.some_bind, drop_packLength]
    simp only [show elemTypeForSeq Option.none = Option.none from rfl]
    rw [readSeq_serializeList xs rest fuel hw'.2 hlen]
    simp only [Option.some_bind, decodedForm, Option.some.injEq, Prod.mk.injEq,
      List.length_cons, List.length_append, packLength, natToBytesBE_length]
    exact ⟨trivial, by omega⟩
  | .dataclass cn fs =>
    have hw' : wfBytes cn = true ∧ fs.length < 2 ^ 32 ∧ wfFields fs = true := by
      simpa [wfValue, and_assoc] using hw
    have hlen : (serializeFields fs).length ≤ fuel := by
      simp [serialize, packLength] at hf; omega
    simp only [serialize, List.cons_append, List.append_assoc, deserializeF]
    rw [unpackLength_packLength _ _ (wfBytes_length hw'.1)]
    simp only [Option.bind_eq_bind, Option.some_bind, drop_packLength_payload]
    rw [unpackLength_packLength _ _ hw'.2.1]
    simp only [Option.some_bind, drop_packLength]
    simp only [show dataclassFieldTypes Option.none = [] from rfl]
    rw [readFields_serializeFields fs rest fuel hw'.2.2 hlen]
    simp only [Option.some_bind, map_decodedFields, decodedForm, Option.some.injEq,
      Prod.mk.injEq, List.length_cons, List.length_append, packLength,
      natToBytesBE_length]
    exact ⟨trivial, by omega⟩
  | .pydantic cn fs =>
    have hw' : wfBytes cn = true ∧ fs.length < 2 ^ 32 ∧ wfFields fs = true := by
      simpa [wfValue, and_assoc] using hw
    have hlen : (serializeFields fs).length ≤ fuel := by
      simp [serialize, packLength] at hf; omega
    simp only [serialize, List.cons_append, List.append_assoc, deserializeF]
    rw [unpackLength_packLength _ _ (wfBytes_length hw'.1)]
    simp only [Option.bind_eq_bind, Option.some_bind, drop_packLength_payload]
    rw [unpackLength_packLength _ _ hw'.2.1]
    simp only [Option.some_bind, drop_packLength]
    simp only [show pydanticFieldTypes Option.none = [] from rfl]
    rw [readFields_serializeFields fs rest fuel hw'.2.2 hlen]
    simp only [Option.some_bind, map_decodedFields, decodedForm, Option.some.injEq,
      Prod.mk.injEq, List.length_cons, List.length_append, packLength,
      natToBytesBE_length]
    exact ⟨trivial, by omega⟩
  | .datetime iso =>
    have hlen : iso.length < 2 ^ 32 := wfBytes_length (by simpa [wfValue] using hw)
    simp only [serialize, List.cons_append, List.append_assoc, deserializeF]
    rw [unpackLength_packLength _ _ hlen]
    simp only [Option.bind_eq_bind, Option.some_bind, take_packLength_payload]
    simp only [decodedForm, Option.some.injEq, Prod.mk.injEq, List.length_cons,
      List.length_append, packLength, natToBytesBE_length]
    exact ⟨trivial, by omega⟩
  | .date iso =>
    have hlen : iso.length < 2 ^ 32 := wfBytes_length (by simpa [wfValue] using hw)
    simp only [serialize, List.cons_append, List.append_assoc, deserializeF]
    rw [unpackLength_packLength _ _ hlen]
    simp only [Option.bind_eq_bind, Option.some_bind, take_packLength_payload]
    simp only [decodedForm, Option.some.injEq, Prod.mk.injEq, List.length_cons,
      List.length_append, packLength, natToBytesBE_length]
    exact ⟨trivial, by omega⟩
  | .time iso =>
    have hlen : iso.length < 2 ^ 32 := wfBytes_length (by simpa [wfValue] using hw)
    simp only [serialize, List.cons_append, List.append_assoc, deserializeF]
    rw [unpackLength_packLength _ _ hlen]
    simp only [Option.bind_eq_bind, Option.some_bind, take_packLength_payload]
    simp only [decodedForm, Option.some.injEq, Prod.mk.injEq, List.length_cons,
      List.length_append, packLength, natToBytesBE_length]
    exact ⟨trivial, by omega⟩
  | .timedelta us =>
    have hb : floatBitsOfMicros us < 256 ^ 8 := by
      rw [pow_256_eq_pow_2]
      exact floatBitsOfMicros_lt us (by simpa [wfValue] using hw)
    simp only [serialize, List.cons_append, deserializeF]
    rw [if_pos (by simp), take_natToBytesBE_append, bytesToNatBE_natToBytesBE_of_lt hb]
    simp [decodedForm, timedeltaRoundtrip]
  | .decimal ds =>
    have hlen : ds.length < 2 ^ 32 := wfBytes_length (by simpa [wfValue] using hw)
    simp only [serialize, List.cons_append, List.append_assoc, deserializeF]
    rw [unpackLength_packLength _ _ hlen]
    simp only [Option.bind_eq_bind, Option.some_bind, take_packLength_payload]
    simp only [decodedForm, Option.some.injEq, Prod.mk.injEq, List.length_cons,
      List.length_append, packLength, natToBytesBE_length]
    exact ⟨trivial, by omega⟩
  | .complex r i =>
    have hw' : r < 2 ^ 64 ∧ i < 2 ^ 64 := by simpa [wfValue] using hw
    have hr : r < 256 ^ 8 := by rw [pow_256_eq_pow_2]; exact hw'.1
    have hi : i < 256 ^ 8 := by rw [pow_256_eq_pow_2]; exact hw'.2
    simp only [serialize, List.cons_append, List.append_assoc, deserializeF]
    rw [if_pos (by simp; omega), take_natToBytesBE_append, bytesToNatBE_natToBytesBE_of_lt hr,
      drop_natToBytesBE_append, take_natToBytesBE_append,
      bytesToNatBE_natToBytesBE_of_lt hi]
    simp [decodedForm]
  | .uuid bs =>
    have hw' : bs.length = 16 := by
      have := hw; simp [wfValue] at this; exact this.1
    simp only [serialize, List.cons_append, deserializeF]
    rw [if_pos (by simp [hw']), take_length_append bs rest 16 hw']
    simp [decodedForm, hw']
  | .enum cn mn =>
    have hw' : wfBytes cn = true ∧ wfBytes mn = true := by simpa [wfValue] using hw
    simp only [serialize, List.cons_append, List.append_assoc, deserializeF]
    rw [unpackLength_packLength _ _ (wfBytes_length hw'.1)]
    simp only [Option.bind_eq_bind, Option.some_bind, take_packLength_payload,
      drop_packLength_payload]
    rw [unpackLength_packLength _ _ (wfBytes_length hw'.2)]
    simp only [Option.some_bind, take_packLength_payload]
    simp only [decodedForm, Option.some.injEq, Prod.mk.injEq, List.length_cons,
      List.length_append, packLength, natToBytesBE_length]
    exact ⟨trivial, by omega⟩

/-- The element loop of the sequence round trip. -/
theorem readSeq_serializeList (xs : List Value) (rest : List Nat) (fuel : Nat)
    (hw : wfList xs = true) (hf : (serializeList xs).length ≤ fuel) :
    readSeq (fun d => deserializeF fuel d Option.none) xs.length
      (serializeList xs ++ rest)
      = some (decodedFormList xs, (serializeList xs).length) := by
  match xs with
  | [] => simp [serializeList, readSeq, decodedFormList]
  | x :: xs =>
    have hwx : wfValue x = true ∧ wfList xs = true := by simpa [wfList] using hw
    have hfx : (serialize x).length ≤ fuel := by
      simp [serializeList] at hf; omega
    have hfxs : (serializeList xs).length ≤ fuel := by
      simp [serializeList] at hf; omega
    simp only [serializeList, List.append_assoc, List.length_cons, readSeq]
    rw [deserializeF_serialize x (serializeList xs ++ rest) fuel hwx.1 hfx]
    simp only [Option.bind_eq_bind, Option.some_bind,
      drop_length_append (serialize x) (serializeList xs ++ rest) _ rfl]
    rw [readSeq_serializeList xs rest fuel hwx.2 hfxs]
    simp [decodedFormList]

/-- The key/value loop of the mapping round trip. -/
theorem readPairs_serializeDict (es : List (Value × Value)) (rest : List Nat)
    (fuel : Nat) (hw : wfPairs es = true) (hf : (serializeDict es).length ≤ fuel) :
    readPairs (fun d => deserializeF fuel d Option.none)
      (fun d => deserializeF fuel d Option.none) es.length
      (serializeDict es ++ rest)
      = some (decodedFormPairs es, (serializeDict es).length) := by
  match es with
  | [] => simp [serializeDict, readPairs, decodedFormPairs]
  | (k, v) :: es =>
    have hwx : wfValue k = true ∧ wfValue v = true ∧ wfPairs es = true := by
      simpa [wfPairs, and_assoc] using hw
    have hfk : (serialize k).length ≤ fuel := by
      simp [serializeDict] at hf; omega
    have hfv : (serialize v).length ≤ fuel := by
      simp [serializeDict] at hf; omega
    have hfes : (serializeDict es).length ≤ fuel := by
      simp [serializeDict] at hf; omega
    simp only [serializeDict, List.append_assoc, List.length_cons, readPairs]
    rw [deserializeF_serialize k (serialize v ++ (serializeDict es ++ rest)) fuel
      hwx.1 hfk]
    simp only [Option.bind_eq_bind, Option.some_bind,
      drop_length_append (serialize k) (serialize v ++ (serializeDict es ++ rest)) _ rfl]
    rw [deserializeF_serialize v (serializeDict es ++ rest) fuel hwx.2.1 hfv]
    simp only [Option.some_bind]
    rw [show (serialize k ++ (serialize v ++ (serializeDict es ++ rest))).drop
        ((serialize k).length + (serialize v).length) = serializeDict es ++ rest by
      rw [← List.append_assoc, ← List.length_append]
      exact drop_length_append _ _ _ rfl]
    rw [readPairs_serializeDict es rest fuel hwx.2.2 hfes]
    simp [decodedFormPairs]
    omega

/-- The field loop of the dataclass / Pydantic round trip (no expected
type, so every field is read with expected type `None`). -/
theorem readFields_serializeFields (fs : List (List Nat × Value)) (rest : List Nat)
    (fuel : Nat) (hw : wfFields fs = true) (hf : (serializeFields fs).length ≤ fuel) :
    readFields (fun e d => deserializeF fuel d e) [] fs.length
      (serializeFields fs ++ rest)
      = some (fs.map (fun p => (p.1, decodedForm p.2)), (serializeFields fs).length) := by
  match fs with
  | [] => simp [serializeFields, readFields]
  | (fn, v) :: fs =>
    have hwx : wfBytes fn = true ∧ wfValue v = true ∧ wfFields fs = true := by
      simpa [wfFields, and_assoc] using hw
    have hfv : (serialize v).length ≤ fuel := by
      simp [serializeFields, packLength] at hf; omega
    have hffs : (serializeFields fs).length ≤ fuel := by
      simp [serializeFields, packLength] at hf; omega
    simp only [serializeFields, List.append_assoc, List.length_cons, readFields]
    rw [unpackLength_packLength _ _ (wfBytes_length hwx.1)]
    simp only [Option.bind_eq_bind, Option.some_bind, take_packLength_payload,
      drop_packLength_payload]
    simp only [show pyGet ([] : List (List Nat × Ty)) fn = Option.none from rfl]
    rw [deserializeF_serialize v (serializeFields fs ++ rest) fuel hwx.2.1 hfv]
    simp only [Option.some_bind]
    rw [show (packLength fn.length ++ (fn ++ (serialize v ++ (serializeFields fs ++ rest)))).drop
        (4 + fn.length + (serialize v).length) = serializeFields fs ++ rest by
      rw [← List.append_assoc, ← List.append_assoc]
      refine drop_length_append _ _ _ ?_
      simp [packLength]
      omega]
    rw [readFields_serializeFields fs rest fuel hwx.2.2 hffs]
    simp [packLength]
    omega

end

/-- C2.  Integer encoding: for `-2^63 ≤ n ≤ 2^63-1`, `serialize(n)` is tag
`0x03` (nonnegative) or `0x15` (negative) followed by the 8-byte signed
big-endian form of `n`; outside that range it is tag `0x16`/`0x17` followed
by a 4-byte big-endian byte count and the big-endian magnitude, the sign
carried only by the tag.  Every integer with an in-range byte count round
trips, and in particular the four boundary values `-2^63`, `-2^63-1`,
`2^63-1`, `2^63` receive the correct tags and round trip. -/
theorem claim_C2_int_encoding :
    (∀ n : Int, -9223372036854775808 ≤ n → n ≤ 9223372036854775807 →
       serialize (.int n)
         = (if 0 ≤ n then 0x03 else 0x15) :: natToBytesBE 8 ((n % (2 ^ 64 : Int)).toNat))
    ∧ (∀ n : Int, n < -9223372036854775808 ∨ 9223372036854775807 < n →
       serialize (.int n)
         = (if 0 ≤ n then 0x16 else 0x17)
           :: (natToBytesBE 4 ((pyBitLength n.natAbs + 7) / 8)
               ++ natToBytesBE ((pyBitLength n.natAbs + 7) / 8) n.natAbs))
    ∧ (∀ n : Int, (pyBitLength n.natAbs + 7) / 8 < 2 ^ 32 →
       deserialize (serialize (.int n)) Option.none
         = some (.int n, (serialize (.int n)).length))
    ∧ ((serialize (.int (-(2 ^ 63)))).head? = some 0x15
       ∧ (serialize (.int (-(2 ^ 63) - 1))).head? = some 0x17
       ∧ (serialize (.int (2 ^ 63 - 1))).head? = some 0x03
       ∧ (serialize (.int (2 ^ 63))).head? = some 0x16)
    ∧ (deserialize (serialize (.int (-(2 ^ 63)))) Option.none
         = some (.int (-(2 ^ 63)), (serialize (.int (-(2 ^ 63)))).length)
       ∧ deserialize (serialize (.int (-(2 ^ 63) - 1))) Option.none
         = some (.int (-(2 ^ 63) - 1), (serialize (.int (-(2 ^ 63) - 1))).length)
       ∧ deserialize (serialize (.int (2 ^ 63 - 1))) Option.none
         = some (.int (2 ^ 63 - 1), (serialize (.int (2 ^ 63 - 1))).length)
       ∧ deserialize (serialize (.int (2 ^ 63))) Option.none
         = some (.int (2 ^ 63), (serialize (.int (2 ^ 63))).length)) := by
  refine ⟨?_, ?_, ?_, ⟨rfl, rfl, rfl, rfl⟩, rfl, rfl, rfl, rfl⟩
  · intro n h1 h2
    show serializeInt n = _
    unfold serializeInt
    rw [if_pos ⟨h1, h2⟩]
    by_cases hs : 0 ≤ n
    · rw [if_pos hs, if_pos hs]; rfl
    · rw [if_neg hs, if_neg hs]; rfl
  · intro n h
    have hr' : ¬(-9223372036854775808 ≤ n ∧ n ≤ 9223372036854775807) := by omega
    by_cases hs : 0 ≤ n
    · simp [serialize, serializeInt, hr', hs, packLength]
    · simp [serialize, serializeInt, hr', hs, packLength]
  · intro n hw
    have h := deserializeF_serialize (.int n) [] (serialize (.int n)).length
      (by simp only [wfValue]; exact decide_eq_true hw) le_rfl
    rw [List.append_nil] at h
    simp only [decodedForm] at h
    exact h

theorem claim_C2_int_encoding_witness :
    (-9223372036854775808 ≤ (5 : Int) ∧ (5 : Int) ≤ 9223372036854775807
     ∧ serialize (.int 5)
       = (if 0 ≤ (5 : Int) then 0x03 else 0x15)
         :: natToBytesBE 8 (((5 : Int) % (2 ^ 64 : Int)).toNat))
    ∧ (((2 : Int) ^ 64 < -9223372036854775808 ∨ (9223372036854775807 : Int) < 2 ^ 64)
       ∧ serialize (.int (2 ^ 64))
         = (if 0 ≤ (2 ^ 64 : Int) then 0x16 else 0x17)
           :: (natToBytesBE 4 ((pyBitLength ((2 ^ 64 : Int)).natAbs + 7) / 8)
               ++ natToBytesBE ((pyBitLength ((2 ^ 64 : Int)).natAbs + 7) / 8)
                 ((2 ^ 64 : Int)).natAbs))
    ∧ ((pyBitLength ((-(2 ^ 70) : Int)).natAbs + 7) / 8 < 2 ^ 32
       ∧ deserialize (serialize (.int (-(2 ^ 70)))) Option.none
         = some (.int (-(2 ^ 70)), (serialize (.int (-(2 ^ 70)))).length)) :=
  ⟨⟨by decide, by decide, claim_C2_int_encoding.1 5 (by decide) (by decide)⟩,
   ⟨by decide, claim_C2_int_encoding.2.1 (2 ^ 64) (by decide)⟩,
   ⟨by decide, claim_C2_int_encoding.2.2.1 (-(2 ^ 70)) (by decide)⟩⟩

/-- C9.  Booleans serialize to the single tag byte `0x01` (`True`) /
`0x02` (`False`), deserialize back to the same boolean consuming one byte,
and never receive any of the integer tags (`0x03`, `0x15`, `0x16`, `0x17`) —
the serializer tests `bool` before `int`, so Python's `bool <: int`
subtyping never routes a boolean to `_serialize_int`. -/
theorem claim_C9_bool_tags : ∀ b : Bool,
    serialize (.bool b) = [if b then 0x01 else 0x02]
    ∧ deserialize [if b then 0x01 else 0x02] Option.none = some (.bool b, 1)
    ∧ (serialize (.bool b)).head? ≠ some 0x03
    ∧ (serialize (.bool b)).head? ≠ some 0x15
    ∧ (serialize (.bool b)).head? ≠ some 0x16
    ∧ (serialize (.bool b)).head? ≠ some 0x17 := by
  intro b
  cases b <;> exact ⟨rfl, rfl, by decide, by decide, by decide, by decide⟩

/-! ## Packet framing  (`proto.py`, `constants.py`, `transport.py`) -/

/-- `class PacketType(IntEnum)`. -/
inductive PacketType where
  | handshakeRequest
  | transactionCall
  | disconnect
  | subscribeRequest
  | unsubscribeRequest
  | handshakeResponse
  | transactionResult
  | error
  | subscribeData
  | subscribeEnd
  | subscribeError
  deriving DecidableEq

/-- Numeric values of the `PacketType` members. -/
def PacketType.toByte : PacketType → Nat
  | .handshakeRequest => 0x01
  | .transactionCall => 0x02
  | .disconnect => 0x03
  | .subscribeRequest => 0x04
  | .unsubscribeRequest => 0x05
  | .handshakeResponse => 0x11
  | .transactionResult => 0x12
  | .error => 0x13
  | .subscribeData => 0x14
  | .subscribeEnd => 0x15
  | .subscribeError => 0x16

/-- `PacketType(value)`: the `IntEnum` constructor, `ValueError` (here
`Option.none`) for a byte that is not a member. -/
def packetTypeOfByte : Nat → Option PacketType
  | 0x01 => some .handshakeRequest
  | 0x02 => some .transactionCall
  | 0x03 => some .disconnect
  | 0x04 => some .subscribeRequest
  | 0x05 => some .unsubscribeRequest
  | 0x11 => some .handshakeResponse
  | 0x12 => some .transactionResult
  | 0x13 => some .error
  | 0x14 => some .subscribeData
  | 0x15 => some .subscribeEnd
  | 0x16 => some .subscribeError
  | _ => Option.none

theorem packetTypeOfByte_toByte (t : PacketType) :
    packetTypeOfByte t.toByte = some t := by
  cases t <;> rfl

/-- `MAGIC_BYTES = b'HTCP'`. -/
def MAGIC_BYTES : List Nat := [0x48, 0x54, 0x43, 0x50]

def PROTOCOL_VERSION : Nat := 1

def HEADER_SIZE : Nat := 12

/-- `MAX_PAYLOAD_SIZE = 16 * 1024 * 1024`. -/
def MAX_PAYLOAD_SIZE : Nat := 16 * 1024 * 1024

/-- `class Packet`: a packet type and an opaque payload. -/
structure Packet where
  packetType : PacketType
  payload : List Nat
  deriving DecidableEq

/-- `Packet.to_bytes`: magic, version byte, type byte, 4-byte big-endian
payload length, two zero reserved bytes, then the payload. -/
def Packet.toBytes (p : Packet) : List Nat :=
  MAGIC_BYTES ++ [PROTOCOL_VERSION] ++ [p.packetType.toByte]
    ++ natToBytesBE 4 p.payload.length ++ [0, 0] ++ p.payload

/-- `Packet.from_bytes`: validate length, magic, version and type, read the
length field, check the buffer holds the payload, and slice it out.  Every
`raise ValueError` is `Option.none`. -/
def Packet.fromBytes (data : List Nat) : Option Packet :=
  if data.length < HEADER_SIZE then Option.none
  else if data.take 4 ≠ MAGIC_BYTES then Option.none
  else if data.getD 4 0 ≠ PROTOCOL_VERSION then Option.none
  else
    match packetTypeOfByte (data.getD 5 0) with
    | Option.none => Option.none
    | some pt =>
      let payloadLength := bytesToNatBE ((data.drop 6).take 4)
      if data.length < HEADER_SIZE + payloadLength then Option.none
      else some ⟨pt, (data.drop HEADER_SIZE).take payloadLength⟩

/-- Failure modes of `recv_packet`, with the payloads of the corresponding
exception constructors. -/
inductive RecvErr where
  | connectionClosed (got expected : Nat)
  | invalidMagic (magic : List Nat)
  | unsupportedVersion (version : Nat)
  | unknownPacketType (b : Nat)
  | maxPayloadExceeded (size maxSize : Nat)
  deriving DecidableEq

/-- Result of `recv_packet` together with how many bytes of the stream were
consumed before returning or raising. -/
inductive RecvOut where
  | ok (p : Packet) (consumed : Nat)
  | err (e : RecvErr) (consumed : Nat)
  deriving DecidableEq

/-- `recv_packet(sock, max_payload_size)` over a byte stream: read exactly
12 header bytes (`recv_exact`; a stream shorter than that raises
connection-closed after consuming what there was), validate magic, version
and packet type, then check the length field against `max_payload_size`
*before* reading any payload byte, and only then read the payload.  The
source materializes the 12-byte header buffer and indexes into it; since
the stream has at least 12 bytes past the first check, indexing the stream
itself below is the same reads. -/
def recvPacket (stream : List Nat) (maxPayloadSize : Nat) : RecvOut :=
  if stream.length < HEADER_SIZE then
    .err (.connectionClosed stream.length HEADER_SIZE) stream.length
  else if stream.take 4 ≠ MAGIC_BYTES then
    .err (.invalidMagic (stream.take 4)) HEADER_SIZE
  else if stream.getD 4 0 ≠ PROTOCOL_VERSION then
    .err (.unsupportedVersion (stream.getD 4 0)) HEADER_SIZE
  else
    match packetTypeOfByte (stream.getD 5 0) with
    | Option.none => .err (.unknownPacketType (stream.getD 5 0)) HEADER_SIZE
    | some pt =>
      let payloadLength := bytesToNatBE ((stream.drop 6).take 4)
      if maxPayloadSize < payloadLength then
        .err (.maxPayloadExceeded payloadLength maxPayloadSize) HEADER_SIZE
      else
        let rest := stream.drop HEADER_SIZE
        if rest.length < payloadLength then
          .err (.connectionClosed rest.length payloadLength) stream.length
        else .ok ⟨pt, rest.take payloadLength⟩ (HEADER_SIZE + payloadLength)

theorem hs_take4 (a b c d e f : Nat) (rest : List Nat) :
    (a :: b :: c :: d :: e :: f :: rest).take 4 = [a, b, c, d] := rfl

theorem hs_getD4 (a b c d e f : Nat) (rest : List Nat) :
    (a :: b :: c :: d :: e :: f :: rest).getD 4 0 = e := rfl

theorem hs_getD5 (a b c d e f : Nat) (rest : List Nat) :
    (a :: b :: c :: d :: e :: f :: rest).getD 5 0 = f := rfl

theorem hs_drop6 (a b c d e f : Nat) (rest : List Nat) :
    (a :: b :: c :: d :: e :: f :: rest).drop 6 = rest := rfl

theorem hs_drop12 (a b c d e f g h : Nat) (n : Nat) (tail : List Nat) :
    (a :: b :: c :: d :: e :: f :: (natToBytesBE 4 n ++ (g :: h :: tail))).drop 12
      = tail := by
  show (natToBytesBE 4 n ++ (g :: h :: tail)).drop 6 = tail
  rw [show (6 : Nat) = 4 + 2 from rfl, ← List.drop_drop, drop_natToBytesBE_append]
  rfl

theorem hs_length (a b c d e f g h : Nat) (n : Nat) (tail : List Nat) :
    (a :: b :: c :: d :: e :: f :: (natToBytesBE 4 n ++ (g :: h :: tail))).length
      = 12 + tail.length := by
  simp; omega

/-- C3.  Packet framing: encoding a packet whose payload fits the length
field and the configured maximum produces exactly the 12-byte header (magic
`HTCP`, version byte 1, the type byte, the 4-byte big-endian payload length,
two zero reserved bytes) followed by the payload; `Packet.from_bytes` and
`recv_packet` decode those bytes back to an equal packet, `recv_packet`
consuming exactly `12 + len(payload)` bytes.  Second conjunct: a received
header whose payload-length field exceeds `max_payload_size` makes
`recv_packet` fail with the max-payload-exceeded error having consumed only
the 12 header bytes, whatever bytes follow the header. -/
theorem claim_C3_packet_framing :
    (∀ (p : Packet) (rest : List Nat) (maxPayloadSize : Nat),
       p.payload.length < 2 ^ 32 → p.payload.length ≤ maxPayloadSize →
       p.toBytes = [0x48, 0x54, 0x43, 0x50] ++ [1] ++ [p.packetType.toByte]
           ++ natToBytesBE 4 p.payload.length ++ [0, 0] ++ p.payload
       ∧ Packet.fromBytes p.toBytes = some p
       ∧ recvPacket (p.toBytes ++ rest) maxPayloadSize
           = .ok p (HEADER_SIZE + p.payload.length))
    ∧ (∀ (t : PacketType) (payloadLenField maxPayloadSize : Nat) (rest : List Nat),
       maxPayloadSize < payloadLenField → payloadLenField < 2 ^ 32 →
       recvPacket (([0x48, 0x54, 0x43, 0x50, 1, t.toByte]
           ++ natToBytesBE 4 payloadLenField ++ [0, 0]) ++ rest) maxPayloadSize
         = .err (.maxPayloadExceeded payloadLenField maxPayloadSize) HEADER_SIZE) := by
  constructor
  · rintro ⟨t, payload⟩ rest maxP h32 hmax
    dsimp only at h32 hmax ⊢
    have hlenfield : bytesToNatBE (natToBytesBE 4 payload.length) = payload.length :=
      bytesToNatBE_natToBytesBE_of_lt (by omega)
    refine ⟨by simp [Packet.toBytes, MAGIC_BYTES, PROTOCOL_VERSION], ?_, ?_⟩
    · -- Packet.from_bytes (Packet.to_bytes p) = p
      have hb : (Packet.mk t payload).toBytes
          = 0x48 :: 0x54 :: 0x43 :: 0x50 :: 1 :: t.toByte ::
            (natToBytesBE 4 payload.length ++ (0 :: 0 :: payload)) := by
        simp [Packet.toBytes, MAGIC_BYTES, PROTOCOL_VERSION]
      rw [hb]
      unfold Packet.fromBytes
      simp only [HEADER_SIZE, PROTOCOL_VERSION, hs_length, hs_take4, hs_getD4,
        hs_getD5, hs_drop6, hs_drop12, packetTypeOfByte_toByte,
        take_natToBytesBE_append, hlenfield]
      rw [if_neg (by omega), if_neg (by simp [MAGIC_BYTES]), if_neg (by simp),
        if_neg (by omega)]
      simp
    · -- recv_packet consumes exactly the packet
      have hb : (Packet.mk t payload).toBytes ++ rest
          = 0x48 :: 0x54 :: 0x43 :: 0x50 :: 1 :: t.toByte ::
            (natToBytesBE 4 payload.length ++ (0 :: 0 :: (payload ++ rest))) := by
        simp [Packet.toBytes, MAGIC_BYTES, PROTOCOL_VERSION]
      rw [hb]
      unfold recvPacket
      simp only [HEADER_SIZE, PROTOCOL_VERSION, hs_length, hs_take4, hs_getD4,
        hs_getD5, hs_drop6, hs_drop12, packetTypeOfByte_toByte,
        take_natToBytesBE_append, hlenfield]
      rw [if_neg (by omega), if_neg (by simp [MAGIC_BYTES]), if_neg (by simp),
        if_neg (by omega), if_neg (by simp)]
      simp [take_length_append payload rest _ rfl]
  · intro t lenField maxP rest hover h32
    have hlenfield : bytesToNatBE (natToBytesBE 4 lenField) = lenField :=
      bytesToNatBE_natToBytesBE_of_lt (by omega)
    have hb : (([0x48, 0x54, 0x43, 0x50, 1, t.toByte]
          ++ natToBytesBE 4 lenField ++ [0, 0]) ++ rest)
        = 0x48 :: 0x54 :: 0x43 :: 0x50 :: 1 :: t.toByte ::
          (natToBytesBE 4 lenField ++ (0 :: 0 :: rest)) := by
      simp
    rw [hb]
    unfold recvPacket
    simp only [HEADER_SIZE, PROTOCOL_VERSION, hs_length, hs_take4, hs_getD4,
      hs_getD5, hs_drop6, packetTypeOfByte_toByte, take_natToBytesBE_append,
      hlenfield]
    rw [if_neg (by omega), if_neg (by simp [MAGIC_BYTES]), if_neg (by simp),
      if_pos hover]

theorem claim_C3_packet_framing_witness :
    ((Packet.mk .transactionCall [9, 9, 9]).payload.length < 2 ^ 32
     ∧ (Packet.mk .transactionCall [9, 9, 9]).payload.length ≤ MAX_PAYLOAD_SIZE
     ∧ Packet.fromBytes (Packet.mk .transactionCall [9, 9, 9]).toBytes
         = some (Packet.mk .transactionCall [9, 9, 9])
     ∧ recvPacket ((Packet.mk .transactionCall [9, 9, 9]).toBytes ++ [1, 2])
         MAX_PAYLOAD_SIZE
         = .ok (Packet.mk .transactionCall [9, 9, 9]) (HEADER_SIZE + 3))
    ∧ (MAX_PAYLOAD_SIZE < 0xFFFFFFFF ∧ (0xFFFFFFFF : Nat) < 2 ^ 32
       ∧ recvPacket (([0x48, 0x54, 0x43, 0x50, 1,
             PacketType.handshakeRequest.toByte]
           ++ natToBytesBE 4 0xFFFFFFFF ++ [0, 0]) ++ [1, 2, 3]) MAX_PAYLOAD_SIZE
         = .err (.maxPayloadExceeded 0xFFFFFFFF MAX_PAYLOAD_SIZE) HEADER_SIZE) :=
  ⟨⟨by decide, by decide,
    (claim_C3_packet_framing.1 (Packet.mk .transactionCall [9, 9, 9]) [1, 2]
      MAX_PAYLOAD_SIZE (by decide) (by decide)).2.1,
    (claim_C3_packet_framing.1 (Packet.mk .transactionCall [9, 9, 9]) [1, 2]
      MAX_PAYLOAD_SIZE (by decide) (by decide)).2.2⟩,
   by decide, by decide,
   claim_C3_packet_framing.2 .handshakeRequest 0xFFFFFFFF MAX_PAYLOAD_SIZE [1, 2, 3]
     (by decide) (by decide)⟩

/-! ## Argument coercion  (`utils.py`: `convert_to_type`, `prepare_arguments`)

The handler's declared parameter schema (`get_function_signature`, built by
introspecting the Python function object) is passed in as data: an
insertion-ordered `name → Ty` table, with `Ty.any` for unannotated
parameters. -/

/-- `get_origin(expected_type)` is truthy: parameterized container generics
(and `Union`, though `convert_to_type` unwraps that before testing). -/
def hasOrigin : Ty → Bool
  | .opt _ => true
  | .list _ => true
  | .tuple _ => true
  | .tupleEll _ => true
  | .dict _ _ => true
  | .set _ => true
  | .frozenset _ => true
  | _ => false

/-- `isinstance(value, expected_type)` for the origin-less expected types.
`isinstance(value, Any)` is `True` (Python ≥ 3.11; on older versions the
`TypeError` is swallowed and the final `return value` gives the same
result).  A `bool` is an instance of `int` (Python's `bool <: int`).
Class-typed checks (enum / dataclass / Pydantic) compare the runtime class,
modelled by qualified class name. -/
def pyIsInstance (v : Value) : Ty → Bool
  | .any => true
  | .bool => match v with | .bool _ => true | _ => false
  | .int => match v with | .bool _ => true | .int _ => true | _ => false
  | .float => match v with | .float _ => true | _ => false
  | .str => match v with | .str _ => true | _ => false
  | .bytes => match v with | .bytes _ => true | _ => false
  | .enum cn _ => match v with | .enum cn' _ => cn' == cn | _ => false
  | .dataclass cn _ => match v with | .dataclass cn' _ => cn' == cn | _ => false
  | .pydantic cn _ => match v with | .pydantic cn' _ => cn' == cn | _ => false
  | _ => false

/-- Membership / lookup with a string key in a decoded mapping
(`"__enum__" in value`, `value["__member__"]`, `field.name in value`):
a string key equals exactly the equal string. -/
def strKeyGet (es : List (Value × Value)) (k : List Nat) : Option Value :=
  (es.find? (fun p => match p.1 with | .str s => s == k | _ => false)).map (·.2)

mutual

/-- `convert_to_type(value, expected_type)`.  Steps in source order:
`None` passes through; `Optional[T]`/`Union[T, None]` unwraps; an exact
`isinstance` match passes through; the `{__enum__, __member__}` sentinel
mapping becomes `expected_type[member]` when the expected type is an `Enum`
subclass (unknown member raises `KeyError`, modelled as `.error`) and passes
through otherwise; a mapping against a dataclass schema is rebuilt field by
field (a field absent from the mapping is omitted — source then calls
`expected_type(**converted_fields)`, whose failure on a missing
defaultless field is not modelled); parameterized containers coerce
elementwise; everything else falls through unchanged. -/
def convertToType : Value → Ty → Except (List Nat) Value
  | .none, _ => .ok .none
  | value, .opt t' => convertToType value t'
  | value, t =>
    if hasOrigin t = false && pyIsInstance value t then .ok value
    else
      match value, t with
      | .dict es, t =>
        if (strKeyGet es enumKey).isSome && (strKeyGet es memberKey).isSome then
          match t with
          | .enum ecn members =>
            match strKeyGet es memberKey with
            | some (.str mn) =>
              if members.contains mn then .ok (.enum ecn mn)
              else .error (asciiBytes "KeyError: unknown enum member")
            | _ => .error (asciiBytes "KeyError: unknown enum member")
          | _ => .ok (.dict es)
        else
          match t with
          | .dataclass cn fields => do
            let cf ← convertFields fields es
            .ok (.dataclass cn cf)
          | .dict tk tv => do
            let es' ← es.mapM (fun p => do
              let k ← convertToType p.1 tk
              let v ← convertToType p.2 tv
              pure (k, v))
            .ok (.dict es')
          | _ => .ok (.dict es)
      | .list xs, t =>
        match t with
        | .list te => do let ys ← xs.mapM (fun x => convertToType x te); .ok (.list ys)
        | .tuple [] => .ok (.tuple xs)
        | .tuple ts => do let ys ← convertTupleF ts xs; .ok (.tuple ys)
        | .tupleEll te => do let ys ← xs.mapM (fun x => convertToType x te); .ok (.tuple ys)
        | .set te => do let ys ← xs.mapM (fun x => convertToType x te); .ok (.set ys)
        | .frozenset te => do let ys ← xs.mapM (fun x => convertToType x te); .ok (.frozenset ys)
        | _ => .ok (.list xs)
      | .tuple xs, t =>
        match t with
        | .list te => do let ys ← xs.mapM (fun x => convertToType x te); .ok (.list ys)
        | .tuple [] => .ok (.tuple xs)
        | .tuple ts => do let ys ← convertTupleF ts xs; .ok (.tuple ys)
        | .tupleEll te => do let ys ← xs.mapM (fun x => convertToType x te); .ok (.tuple ys)
        | .set te => do let ys ← xs.mapM (fun x => convertToType x te); .ok (.set ys)
        | .frozenset te => do let ys ← xs.mapM (fun x => convertToType x te); .ok (.frozenset ys)
        | _ => .ok (.tuple xs)
      | .set xs, t =>
        match t with
        | .set te => do let ys ← xs.mapM (fun x => convertToType x te); .ok (.set ys)
        | .frozenset te => do let ys ← xs.mapM (fun x => convertToType x te); .ok (.frozenset ys)
        | _ => .ok (.set xs)
      | .frozenset xs, t =>
        match t with
        | .set te => do let ys ← xs.mapM (fun x => convertToType x te); .ok (.set ys)
        | .frozenset te => do let ys ← xs.mapM (fun x => convertToType x te); .ok (.frozenset ys)
        | _ => .ok (.frozenset xs)
      | value, _ => .ok value

/-- Positional coercion of `Tuple[X, Y, ...]` (fixed arity): element `i`
converts with `args[i]`, or `Any` past the end — and `convert_to_type(v,
Any)` returns `v` unchanged, so the remaining elements pass through. -/
def convertTupleF : List Ty → List Value → Except (List Nat) (List Value)
  | _, [] => .ok []
  | [], xs => .ok xs
  | t' :: ts, x :: xs => do
    let y ← convertToType x t'
    let ys ← convertTupleF ts xs
    .ok (y :: ys)

/-- The field loop of the dataclass branch: for each declared field present
in the mapping, coerce it by its declared type; absent fields are omitted. -/
def convertFields : List (List Nat × Ty) → List (Value × Value) →
    Except (List Nat) (List (List Nat × Value))
  | [], _ => .ok []
  | (fn, ft) :: fields, es =>
    match strKeyGet es fn with
    | some v => do
      let w ← convertToType v ft
      let rest ← convertFields fields es
      .ok ((fn, w) :: rest)
    | Option.none => convertFields fields es

end

/-- `prepare_arguments(func, raw_args)`: walk the provided arguments in
order; a name that is a declared parameter is coerced to its declared type
(`param_types.get(name)`), any other name is passed through unchanged.  The
first coercion exception aborts (and the caller replies
invalid-arguments). -/
def prepareArguments (sig : List (List Nat × Ty)) :
    List (List Nat × Value) → Except (List Nat) (List (List Nat × Value))
  | [] => .ok []
  | (name, value) :: rawArgs =>
    match pyGet sig name with
    | some t => do
      let w ← convertToType value t
      let rest ← prepareArguments sig rawArgs
      .ok ((name, w) :: rest)
    | Option.none => do
      let rest ← prepareArguments sig rawArgs
      .ok ((name, value) :: rest)

/-- C10.  `prepare_arguments` returns a mapping with exactly the keys of the
raw argument mapping, in order: a name that is not a declared parameter
passes through unchanged (neither dropped nor rejected), a declared
parameter absent from the raw arguments is simply omitted, and exactly the
names matching declared parameters have their values coerced
(`convert_to_type`) to the declared types. -/
theorem claim_C10_prepare_arguments :
    ∀ (sig : List (List Nat × Ty)) (args r : List (List Nat × Value)),
      prepareArguments sig args = .ok r →
      r.map Prod.fst = args.map Prod.fst
      ∧ List.Forall₂ (fun (p q : List Nat × Value) =>
          p.1 = q.1 ∧
          match pyGet sig p.1 with
          | some t => convertToType p.2 t = .ok q.2
          | Option.none => q.2 = p.2) args r
      ∧ (∀ n, n ∉ args.map Prod.fst → n ∉ r.map Prod.fst) := by
  intro sig args
  induction args with
  | nil =>
    intro r h
    simp only [prepareArguments, Except.ok.injEq] at h
    subst h
    exact ⟨rfl, List.Forall₂.nil, fun n hn => hn⟩
  | cons a rawArgs ih =>
    obtain ⟨name, value⟩ := a
    intro r h
    simp only [prepareArguments] at h
    cases hg : pyGet sig name with
    | none =>
      simp only [hg] at h
      cases hrest : prepareArguments sig rawArgs with
      | error e => rw [hrest] at h; simp [Bind.bind, Except.bind] at h
      | ok rest =>
        rw [hrest] at h
        simp only [Bind.bind, Except.bind, Except.ok.injEq] at h
        subst h
        obtain ⟨h1, h2, h3⟩ := ih rest hrest
        refine ⟨by simp [h1], ?_, ?_⟩
        · exact List.Forall₂.cons ⟨rfl, by simp only [hg]⟩ h2
        · intro n hn
          simp only [List.map_cons, List.mem_cons] at hn ⊢
          rw [h1]
          exact hn
    | some t =>
      simp only [hg] at h
      cases hconv : convertToType value t with
      | error e => rw [hconv] at h; simp [Bind.bind, Except.bind] at h
      | ok w =>
        rw [hconv] at h
        cases hrest : prepareArguments sig rawArgs with
        | error e =>
          rw [hrest] at h; simp [Bind.bind, Except.bind] at h
        | ok rest =>
          rw [hrest] at h
          simp only [Bind.bind, Except.bind, Except.ok.injEq] at h
          subst h
          obtain ⟨h1, h2, h3⟩ := ih rest hrest
          refine ⟨by simp [h1], ?_, ?_⟩
          · exact List.Forall₂.cons ⟨rfl, by simp only [hg, hconv]⟩ h2
          · intro n hn
            simp only [List.map_cons, List.mem_cons] at hn ⊢
            rw [h1]
            exact hn

theorem claim_C10_prepare_arguments_witness :
    prepareArguments [(asciiBytes "x", Ty.int)]
        [(asciiBytes "x", .int 5), (asciiBytes "stray", .str (asciiBytes "v"))]
      = .ok [(asciiBytes "x", .int 5), (asciiBytes "stray", .str (asciiBytes "v"))]
    ∧ ([(asciiBytes "x", Value.int 5),
        (asciiBytes "stray", Value.str (asciiBytes "v"))].map Prod.fst
        = [((asciiBytes "x" : List Nat), Value.int 5),
           (asciiBytes "stray", Value.str (asciiBytes "v"))].map Prod.fst
       ∧ List.Forall₂ (fun (p q : List Nat × Value) =>
          p.1 = q.1 ∧
          match pyGet [(asciiBytes "x", Ty.int)] p.1 with
          | some t => convertToType p.2 t = .ok q.2
          | Option.none => q.2 = p.2)
          [(asciiBytes "x", .int 5), (asciiBytes "stray", .str (asciiBytes "v"))]
          [(asciiBytes "x", .int 5), (asciiBytes "stray", .str (asciiBytes "v"))]
       ∧ (∀ n, n ∉ [((asciiBytes "x" : List Nat), Value.int 5),
             (asciiBytes "stray", Value.str (asciiBytes "v"))].map Prod.fst →
           n ∉ [((asciiBytes "x" : List Nat), Value.int 5),
             (asciiBytes "stray", Value.str (asciiBytes "v"))].map Prod.fst)) :=
  ⟨rfl,
   claim_C10_prepare_arguments [(asciiBytes "x", Ty.int)]
     [(asciiBytes "x", .int 5), (asciiBytes "stray", .str (asciiBytes "v"))]
     [(asciiBytes "x", .int 5), (asciiBytes "stray", .str (asciiBytes "v"))] rfl⟩

/-! ## Server runtime  (`server/server.py`, `server/transaction.py`,
`server/subscription.py`, `server/connection.py`)

Server-to-client replies are modelled at the message layer (the payload
fields of `TransactionResult`, `ErrorPacket`, `SubscribeError`), and Python
exceptions raised by handlers as `Except`.  A client address is a
`(host, port)` pair. -/

abbrev Addr := String × Nat

/-- `class ErrorCode(IntEnum)`. -/
abbrev ErrorCode.SUCCESS : Nat := 0
abbrev ErrorCode.UNKNOWN_TRANSACTION : Nat := 1
abbrev ErrorCode.INVALID_ARGUMENTS : Nat := 2
abbrev ErrorCode.EXECUTION_ERROR : Nat := 3
abbrev ErrorCode.PROTOCOL_ERROR : Nat := 4
abbrev ErrorCode.INTERNAL_ERROR : Nat := 5

/-- Messages the server sends back on one interaction:
`TransactionResult(success, result, error_code, error_message)`,
`ErrorPacket(error_code, message)` and
`SubscribeError(subscription_id, error_code, message)`. -/
inductive ServerOut where
  | resultOut (success : Bool) (result : Value) (errorCode : Nat)
      (errorMessage : List Nat)
  | errorOut (errorCode : Nat) (message : List Nat)
  | subscribeErrorOut (subscriptionId : List Nat) (errorCode : Nat)
      (message : List Nat)

/-- A registered transaction (`class Transaction`): its declared parameter
schema (`param_types` from `get_function_signature`) and the handler call
`trans.func(**prepared_args)`, whose raised exceptions are `.error`. -/
structure Transaction where
  sig : List (List Nat × Ty)
  run : List (List Nat × Value) → Except (List Nat) Value

/-- `Server._handle_transaction` after parsing the call: look the code up in
the transaction registry; missing code replies
`success=False, error_code=UNKNOWN_TRANSACTION,
error_message="Unknown transaction: " + code`; then argument preparation
(failure → INVALID_ARGUMENTS), then execution (raise → EXECUTION_ERROR),
else `success=True, result, SUCCESS`.  `TransactionResult` defaults:
`result=None`, `error_message=""`. -/
def handleTransaction (transactions : List (List Nat × Transaction))
    (code : List Nat) (args : List (List Nat × Value)) : List ServerOut :=
  match pyGet transactions code with
  | Option.none =>
    [.resultOut false .none ErrorCode.UNKNOWN_TRANSACTION
      (asciiBytes "Unknown transaction: " ++ code)]
  | some tr =>
    match prepareArguments tr.sig args with
    | .error e => [.resultOut false .none ErrorCode.INVALID_ARGUMENTS e]
    | .ok preparedArgs =>
      match tr.run preparedArgs with
      | .error e => [.resultOut false .none ErrorCode.EXECUTION_ERROR e]
      | .ok result => [.resultOut true result ErrorCode.SUCCESS []]

/-- Which handler `_process_packet` routed a packet to. -/
inductive DispatchAction where
  | handledHandshake
  | handledTransaction
  | handledSubscribe
  | handledUnsubscribe
  | disconnectNoted
  | protocolErrorSent
  deriving DecidableEq

/-- `Server._process_packet`: a pure dispatch on the packet type — there is
no per-connection handshake state.  `DISCONNECT` clears
`client.connected`; the catch-all sends a protocol error (server→client
types that `recv_packet` accepted end up there). -/
def processPacket (connected : Bool) (pt : PacketType) : Bool × DispatchAction :=
  match pt with
  | .handshakeRequest => (connected, .handledHandshake)
  | .transactionCall => (connected, .handledTransaction)
  | .subscribeRequest => (connected, .handledSubscribe)
  | .unsubscribeRequest => (connected, .handledUnsubscribe)
  | .disconnect => (false, .disconnectNoted)
  | _ => (connected, .protocolErrorSent)

/-- The `while self._running and client.connected` reader loop of
`Server._handle_client`, over the sequence of packet types received:
returns the dispatch trace and the final connected flag. -/
def runReader (connected : Bool) : List PacketType → List DispatchAction × Bool
  | [] => ([], connected)
  | pt :: pts =>
    if connected then
      let (c', a) := processPacket connected pt
      let (acts, cEnd) := runReader c' pts
      (a :: acts, cEnd)
    else ([], connected)

theorem runReader_no_disconnect (pts : List PacketType)
    (h : PacketType.disconnect ∉ pts) :
    runReader true pts = (pts.map (fun pt => (processPacket true pt).2), true) := by
  induction pts with
  | nil => rfl
  | cons pt pts ih =>
    have hpt : pt ≠ .disconnect := fun he => h (he ▸ List.mem_cons_self pt pts)
    have hc : (processPacket true pt).1 = true := by
      cases pt <;> first | rfl | exact absurd rfl hpt
    simp only [runReader, if_pos rfl]
    rw [show (processPacket true pt) = ((processPacket true pt).1, (processPacket true pt).2) from rfl, hc,
      ih (fun hm => h (List.mem_cons_of_mem pt hm))]
    simp

/-- C5 counterexample: a transaction-call received as the very first packet
of a connection — no handshake-request ever processed — is dispatched
straight to the transaction handler; no error packet is sent and the
connection is not closed.  This refutes the claim that any pre-handshake
packet other than a handshake-request draws an error and a close. -/
theorem claim_C5_counterexample :
    runReader true [.transactionCall] = ([.handledTransaction], true)
    ∧ (DispatchAction.handledTransaction ≠ .protocolErrorSent
       ∧ DispatchAction.handledTransaction ≠ .disconnectNoted) :=
  ⟨rfl, by decide, by decide⟩

/-- C5 (amended).  The server keeps no per-connection handshake state:
`_process_packet` dispatches on the packet type alone, so after any prefix
of packets containing no disconnect — in particular one containing no
handshake-request — a transaction-call, subscribe-request or
unsubscribe-request is dispatched to its handler exactly as it would be
after a handshake, and the connection stays open. -/
theorem claim_C5_no_greeting_state :
    ∀ (prior : List PacketType), PacketType.disconnect ∉ prior →
      runReader true (prior ++ [.transactionCall])
        = ((runReader true prior).1 ++ [.handledTransaction], true)
      ∧ runReader true (prior ++ [.subscribeRequest])
        = ((runReader true prior).1 ++ [.handledSubscribe], true)
      ∧ runReader true (prior ++ [.unsubscribeRequest])
        = ((runReader true prior).1 ++ [.handledUnsubscribe], true) := by
  intro prior h
  have hone : ∀ pt : PacketType, pt ≠ .disconnect →
      runReader true (prior ++ [pt])
        = ((runReader true prior).1 ++ [(processPacket true pt).2], true) := by
    intro pt hpt
    have hall : PacketType.disconnect ∉ prior ++ [pt] := by
      intro hm
      rcases List.mem_append.mp hm with hm | hm
      · exact h hm
      · simp at hm; exact hpt hm.symm
    rw [runReader_no_disconnect _ hall, runReader_no_disconnect _ h]
    simp
  exact ⟨hone .transactionCall (by decide), hone .subscribeRequest (by decide),
    hone .unsubscribeRequest (by decide)⟩

theorem claim_C5_no_greeting_state_witness :
    PacketType.disconnect ∉ ([.handshakeRequest, .transactionCall] : List PacketType)
    ∧ runReader true ([.handshakeRequest, .transactionCall] ++ [.transactionCall])
      = ((runReader true [.handshakeRequest, .transactionCall]).1
          ++ [.handledTransaction], true) :=
  ⟨by decide,
   (claim_C5_no_greeting_state [.handshakeRequest, .transactionCall] (by decide)).1⟩

/-- C8.  An unknown transaction code draws a `TransactionResult` with
`success=False`, `error_code=1` (unknown-transaction) and
`error_message = "Unknown transaction: " + code`, and the reader loop is
unaffected: it goes on processing the packets after the transaction-call. -/
theorem claim_C8_unknown_transaction :
    ∀ (transactions : List (List Nat × Transaction)) (code : List Nat)
      (args : List (List Nat × Value)),
      pyGet transactions code = Option.none →
      handleTransaction transactions code args
        = [.resultOut false .none 1 (asciiBytes "Unknown transaction: " ++ code)]
      ∧ (∀ pts : List PacketType,
          runReader true (.transactionCall :: pts)
            = (.handledTransaction :: (runReader true pts).1,
               (runReader true pts).2)) := by
  intro transactions code args h
  constructor
  · unfold handleTransaction
    rw [h]
  · intro pts
    simp [runReader, processPacket]

theorem claim_C8_unknown_transaction_witness :
    pyGet ([] : List (List Nat × Transaction)) (asciiBytes "nope") = Option.none
    ∧ handleTransaction [] (asciiBytes "nope") []
      = [.resultOut false .none 1 (asciiBytes "Unknown transaction: nope")]
    ∧ runReader true [.transactionCall, .handshakeRequest]
      = (.handledTransaction :: (runReader true [.handshakeRequest]).1,
         (runReader true [.handshakeRequest]).2) :=
  ⟨rfl,
   (claim_C8_unknown_transaction [] (asciiBytes "nope") [] rfl).1,
   (claim_C8_unknown_transaction [] (asciiBytes "nope") [] rfl).2 [.handshakeRequest]⟩

theorem pyGet_pySet_self {κ α : Type} [BEq κ] [LawfulBEq κ]
    (m : List (κ × α)) (k : κ) (v : α) : pyGet (pySet m k v) k = some v := by
  induction m with
  | nil => simp [pySet, pyGet]
  | cons e m ih =>
    obtain ⟨k', v'⟩ := e
    by_cases h : k' == k
    · simp [pySet, h, pyGet]
    · simp only [pySet, h, Bool.false_eq_true, if_false]
      simp only [pyGet, List.find?] at ih ⊢
      rw [show (k' == k) = false by simpa using h]
      exact ih

/-- A registered subscription handler (`class Subscription`): its declared
parameter schema, whether the producer is an async generator, and the
creation step `sub.func(**prepared_args)` — calling a generator function
binds the argument mapping to the declared parameters without running the
body, raising `TypeError` on a stray or missing name; `create` returns the
bound generator (represented by its bound arguments) or the raised
message.  The producer itself runs on its own thread / task; only its
creation is observed here. -/
structure Subscription where
  sig : List (List Nat × Ty)
  isAsync : Bool
  create : List (List Nat × Value) → Except (List Nat) (List (List Nat × Value))

/-- `class ActiveSubscription` of `server/subscription.py`: the generator is
represented by the prepared arguments it was created from. -/
structure ActiveSubscription where
  subscriptionId : List Nat
  eventType : List Nat
  clientAddress : Addr
  generatorArgs : List (List Nat × Value)
  isAsync : Bool

/-- `class ActiveSubscriptionRegistry`: the id-keyed map and the
per-connection index. -/
structure ActiveSubscriptionRegistry where
  subs : List (List Nat × ActiveSubscription)
  byClient : List (Addr × List (List Nat))

/-- Python `set.add`. -/
def setAdd (s : List (List Nat)) (x : List Nat) : List (List Nat) :=
  if s.contains x then s else s ++ [x]

/-- `ActiveSubscriptionRegistry.add`: build the `ActiveSubscription`, store
it under `subscription_id` — `self._subscriptions[subscription_id] = sub`
silently replaces any existing entry with that id — and add the id to the
owning connection's set. -/
def ActiveSubscriptionRegistry.add (reg : ActiveSubscriptionRegistry)
    (subscriptionId eventType : List Nat) (clientAddress : Addr)
    (generatorArgs : List (List Nat × Value)) (isAsync : Bool) :
    ActiveSubscriptionRegistry × ActiveSubscription :=
  let sub : ActiveSubscription :=
    ⟨subscriptionId, eventType, clientAddress, generatorArgs, isAsync⟩
  ({ subs := pySet reg.subs subscriptionId sub,
     byClient := pySet reg.byClient clientAddress
       (setAdd ((pyGet reg.byClient clientAddress).getD []) subscriptionId) },
   sub)

/-- `Server._handle_subscribe` after parsing the request: look up the event
type (missing → subscribe-error with UNKNOWN_TRANSACTION), prepare the
arguments (failure → subscribe-error with INVALID_ARGUMENTS), then inside a
`try` create the generator — a raise there, e.g. a stray or missing
argument name at binding, sends subscribe-error with EXECUTION_ERROR and
starts nothing — register it in the active-subscription registry and start
one producer thread for it.  The returned `Nat` counts producer threads
started.  There is no duplicate-subscription_id check anywhere on this
path. -/
def handleSubscribe (subscriptions : List (List Nat × Subscription))
    (reg : ActiveSubscriptionRegistry) (clientAddress : Addr)
    (subscriptionId eventType : List Nat) (args : List (List Nat × Value)) :
    ActiveSubscriptionRegistry × List ServerOut × Nat :=
  match pyGet subscriptions eventType with
  | Option.none =>
    (reg, [.subscribeErrorOut subscriptionId ErrorCode.UNKNOWN_TRANSACTION
      (asciiBytes "Unknown subscription event type: " ++ eventType)], 0)
  | some sub =>
    match prepareArguments sub.sig args with
    | .error e =>
      (reg, [.subscribeErrorOut subscriptionId ErrorCode.INVALID_ARGUMENTS e], 0)
    | .ok preparedArgs =>
      match sub.create preparedArgs with
      | .error e =>
        (reg, [.subscribeErrorOut subscriptionId ErrorCode.EXECUTION_ERROR e], 0)
      | .ok gen =>
        ((reg.add subscriptionId eventType clientAddress gen sub.isAsync).1, [], 1)

/-- C4 counterexample: with event types `"ev1"` and `"ev2"` registered and
subscription id `"s"` already active (for `"ev1"`), a second
subscribe-request on the same connection reusing id `"s"` (for `"ev2"`) is
*not* rejected: no subscribe-error (in particular none with error code 2)
is sent, a second producer thread is started, and the registry entry for
`"s"` is silently replaced by the new subscription. -/
theorem claim_C4_counterexample :
    (handleSubscribe
        [(asciiBytes "ev1", ⟨[], false, Except.ok⟩),
         (asciiBytes "ev2", ⟨[], false, Except.ok⟩)]
        ((ActiveSubscriptionRegistry.mk [] []).add (asciiBytes "s")
          (asciiBytes "ev1") ("c", 1) [] false).1
        ("c", 1) (asciiBytes "s") (asciiBytes "ev2") []).2.1 = []
    ∧ (handleSubscribe
        [(asciiBytes "ev1", ⟨[], false, Except.ok⟩),
         (asciiBytes "ev2", ⟨[], false, Except.ok⟩)]
        ((ActiveSubscriptionRegistry.mk [] []).add (asciiBytes "s")
          (asciiBytes "ev1") ("c", 1) [] false).1
        ("c", 1) (asciiBytes "s") (asciiBytes "ev2") []).2.2 = 1
    ∧ (pyGet ((ActiveSubscriptionRegistry.mk [] []).add (asciiBytes "s")
          (asciiBytes "ev1") ("c", 1) [] false).1.subs (asciiBytes "s")).isSome
        = true
    ∧ (pyGet (handleSubscribe
        [(asciiBytes "ev1", ⟨[], false, Except.ok⟩),
         (asciiBytes "ev2", ⟨[], false, Except.ok⟩)]
        ((ActiveSubscriptionRegistry.mk [] []).add (asciiBytes "s")
          (asciiBytes "ev1") ("c", 1) [] false).1
        ("c", 1) (asciiBytes "s") (asciiBytes "ev2") []).1.subs
        (asciiBytes "s")).map ActiveSubscription.eventType
      = some (asciiBytes "ev2") :=
  ⟨rfl, rfl, rfl, rfl⟩

/-- C4 (amended).  A subscribe-request whose event type is registered,
whose arguments prepare successfully, and whose generator creation from
them does not raise always starts a producer and sends no subscribe-error,
even when the connection already has an active subscription with the same
`subscription_id`: `ActiveSubscriptionRegistry.add` silently replaces the
existing entry for that id with the new subscription. -/
theorem claim_C4_duplicate_subscription_id :
    ∀ (subscriptions : List (List Nat × Subscription))
      (reg : ActiveSubscriptionRegistry) (clientAddress : Addr)
      (subscriptionId eventType : List Nat) (args : List (List Nat × Value))
      (sub : Subscription) (preparedArgs gen : List (List Nat × Value))
      (old : ActiveSubscription),
      pyGet subscriptions eventType = some sub →
      prepareArguments sub.sig args = .ok preparedArgs →
      sub.create preparedArgs = .ok gen →
      pyGet reg.subs subscriptionId = some old →
      handleSubscribe subscriptions reg clientAddress subscriptionId eventType args
        = ((reg.add subscriptionId eventType clientAddress gen
            sub.isAsync).1, [], 1)
      ∧ pyGet (handleSubscribe subscriptions reg clientAddress subscriptionId
            eventType args).1.subs subscriptionId
        = some ⟨subscriptionId, eventType, clientAddress, gen,
            sub.isAsync⟩ := by
  intro subscriptions reg clientAddress subscriptionId eventType args sub
    preparedArgs gen old hget hprep hcreate hold
  have hmain : handleSubscribe subscriptions reg clientAddress subscriptionId
      eventType args
      = ((reg.add subscriptionId eventType clientAddress gen
          sub.isAsync).1, [], 1) := by
    unfold handleSubscribe
    simp only [hget, hprep, hcreate]
  refine ⟨hmain, ?_⟩
  rw [hmain]
  exact pyGet_pySet_self reg.subs subscriptionId _

theorem claim_C4_duplicate_subscription_id_witness :
    pyGet [(asciiBytes "ev", (⟨[], false, Except.ok⟩ : Subscription))]
        (asciiBytes "ev")
      = some ⟨[], false, Except.ok⟩
    ∧ prepareArguments ([] : List (List Nat × Ty)) [] = .ok []
    ∧ (⟨[], false, Except.ok⟩ : Subscription).create [] = .ok []
    ∧ pyGet ((ActiveSubscriptionRegistry.mk [] []).add (asciiBytes "s")
        (asciiBytes "ev") ("c", 1) [] false).1.subs (asciiBytes "s")
      = some ⟨asciiBytes "s", asciiBytes "ev", ("c", 1), [], false⟩
    ∧ handleSubscribe [(asciiBytes "ev", ⟨[], false, Except.ok⟩)]
        ((ActiveSubscriptionRegistry.mk [] []).add (asciiBytes "s")
          (asciiBytes "ev") ("c", 1) [] false).1
        ("c", 1) (asciiBytes "s") (asciiBytes "ev") []
      = ((((ActiveSubscriptionRegistry.mk [] []).add (asciiBytes "s")
            (asciiBytes "ev") ("c", 1) [] false).1.add (asciiBytes "s")
            (asciiBytes "ev") ("c", 1) [] false).1, [], 1) :=
  ⟨rfl, rfl, rfl, rfl,
   (claim_C4_duplicate_subscription_id [(asciiBytes "ev", ⟨[], false, Except.ok⟩)]
     ((ActiveSubscriptionRegistry.mk [] []).add (asciiBytes "s")
       (asciiBytes "ev") ("c", 1) [] false).1
     ("c", 1) (asciiBytes "s") (asciiBytes "ev") [] ⟨[], false, Except.ok⟩ [] []
     ⟨asciiBytes "s", asciiBytes "ev", ("c", 1), [], false⟩ rfl rfl rfl rfl).1⟩

/-- `class ServerClientConnection` (socket handle and timeouts are not
further modelled; `connected` starts `True`). -/
structure ServerClientConnection where
  address : Addr
  connected : Bool

/-- `class ConnectionRegistry`: the bounded `address → connection` map;
`max_connections = 0` means unlimited. -/
structure ConnectionRegistry where
  maxConnections : Nat
  connections : List (Addr × ServerClientConnection)

/-- `ConnectionRegistry.try_add`: under one critical section, refuse when
`0 < max_connections <= len(connections)`, else construct the connection
and insert it (`self._connections[address] = conn`). -/
def ConnectionRegistry.tryAdd (reg : ConnectionRegistry) (address : Addr) :
    Option (ConnectionRegistry × ServerClientConnection) :=
  if 0 < reg.maxConnections ∧ reg.maxConnections ≤ reg.connections.length then
    Option.none
  else
    let conn : ServerClientConnection := ⟨address, true⟩
    some ({ reg with connections := pySet reg.connections address conn }, conn)

/-- `ConnectionRegistry.remove`: `self._connections.pop(address, None)`. -/
def ConnectionRegistry.removeAddr (reg : ConnectionRegistry) (address : Addr) :
    ConnectionRegistry :=
  { reg with connections := pyPop reg.connections address }

/-- What `Server._accept_loop` does with one accepted socket. -/
inductive AcceptAction where
  | rejectedClosed
  | spawnedHandler
  deriving DecidableEq

/-- One iteration of `Server._accept_loop`: `try_add` returning `None`
closes the new socket — sending no packet — and leaves the registry as it
was; otherwise the connection is in the registry and a handler thread is
spawned. -/
def acceptStep (reg : ConnectionRegistry) (address : Addr) :
    ConnectionRegistry × AcceptAction :=
  match reg.tryAdd address with
  | Option.none => (reg, .rejectedClosed)
  | some (reg', _) => (reg', .spawnedHandler)

/-- A history of admissions (`_accept_loop`) and departures
(`_handle_client`'s `finally` calling `remove`). -/
inductive RegOp where
  | tryAddOp (address : Addr)
  | removeOp (address : Addr)

def runRegOps (reg : ConnectionRegistry) : List RegOp → ConnectionRegistry
  | [] => reg
  | op :: ops =>
    match op with
    | .tryAddOp a => runRegOps (acceptStep reg a).1 ops
    | .removeOp a => runRegOps (reg.removeAddr a) ops

theorem pySet_length_le {κ α : Type} [BEq κ] (m : List (κ × α)) (k : κ) (v : α) :
    (pySet m k v).length ≤ m.length + 1 := by
  induction m with
  | nil => simp [pySet]
  | cons e m ih =>
    obtain ⟨k', v'⟩ := e
    by_cases h : (k' == k) = true
    · simp [pySet, h]
    · simp only [pySet, h, Bool.false_eq_true, if_false, List.length_cons]
      omega

theorem pyPop_length_le {κ α : Type} [BEq κ] (m : List (κ × α)) (k : κ) :
    (pyPop m k).length ≤ m.length := by
  induction m with
  | nil => simp [pyPop]
  | cons e m ih =>
    obtain ⟨k', v'⟩ := e
    by_cases h : (k' == k) = true
    · simp [pyPop, h]
    · simp only [pyPop, h, Bool.false_eq_true, if_false, List.length_cons]
      omega

theorem runRegOps_bound (ops : List RegOp) :
    ∀ reg : ConnectionRegistry, 0 < reg.maxConnections →
      reg.connections.length ≤ reg.maxConnections →
      (runRegOps reg ops).connections.length ≤ reg.maxConnections
      ∧ (runRegOps reg ops).maxConnections = reg.maxConnections := by
  induction ops with
  | nil => intro reg _ hlen; exact ⟨hlen, rfl⟩
  | cons op ops ih =>
    intro reg hmax hlen
    match op with
    | .tryAddOp a =>
      simp only [runRegOps]
      by_cases hfull : 0 < reg.maxConnections
          ∧ reg.maxConnections ≤ reg.connections.length
      · rw [show acceptStep reg a = (reg, .rejectedClosed) by
          unfold acceptStep ConnectionRegistry.tryAdd
          rw [if_pos hfull]]
        exact ih reg hmax hlen
      · have hstep : (acceptStep reg a).1
            = { reg with connections := pySet reg.connections a ⟨a, true⟩ } := by
          unfold acceptStep ConnectionRegistry.tryAdd
          rw [if_neg hfull]
        rw [hstep]
        have hlt : reg.connections.length < reg.maxConnections := by
          rcases not_and_or.mp hfull with h | h
          · omega
          · omega
        have hle : (pySet reg.connections a ⟨a, true⟩).length
            ≤ reg.maxConnections := by
          have := pySet_length_le reg.connections a (⟨a, true⟩ : ServerClientConnection)
          omega
        exact ih _ hmax hle
    | .removeOp a =>
      simp only [runRegOps]
      have : (reg.removeAddr a).connections.length ≤ reg.maxConnections := by
        have := pyPop_length_le reg.connections a
        simp only [ConnectionRegistry.removeAddr]
        omega
      exact ih _ hmax this

/-- C7.  With `max_connections = K > 0`, any history of admissions and
removals starting from the empty registry keeps the stored connection count
at most `K`; a `try_add` performed when the count equals `K` returns `None`
and the accept loop then closes the new socket without admitting it (the
registry is unchanged and no handler is spawned — no packet is ever sent on
that socket).  With `max_connections = 0` a `try_add` always inserts. -/
theorem claim_C7_connection_registry :
    (∀ (K : Nat) (ops : List RegOp), 0 < K →
       (runRegOps ⟨K, []⟩ ops).connections.length ≤ K)
    ∧ (∀ (reg : ConnectionRegistry) (address : Addr),
       0 < reg.maxConnections →
       reg.connections.length = reg.maxConnections →
       reg.tryAdd address = Option.none
       ∧ acceptStep reg address = (reg, .rejectedClosed))
    ∧ (∀ (reg : ConnectionRegistry) (address : Addr),
       reg.maxConnections = 0 →
       reg.tryAdd address
         = some ({ reg with
             connections := pySet reg.connections address ⟨address, true⟩ },
           ⟨address, true⟩)) := by
  refine ⟨?_, ?_, ?_⟩
  · intro K ops hK
    exact (runRegOps_bound ops ⟨K, []⟩ hK (by simp)).1
  · intro reg address hmax hfull
    have h : reg.tryAdd address = Option.none := by
      unfold ConnectionRegistry.tryAdd
      rw [if_pos ⟨hmax, le_of_eq hfull.symm⟩]
    exact ⟨h, by unfold acceptStep; rw [h]⟩
  · intro reg address h0
    unfold ConnectionRegistry.tryAdd
    rw [if_neg (by omega)]

theorem claim_C7_connection_registry_witness :
    (0 < 2
     ∧ (runRegOps ⟨2, []⟩ [.tryAddOp ("a", 1), .tryAddOp ("b", 2),
         .tryAddOp ("c", 3), .removeOp ("a", 1),
         .tryAddOp ("d", 4)]).connections.length ≤ 2)
    ∧ (0 < (1 : Nat)
       ∧ (ConnectionRegistry.mk 1 [(("a", 1), ⟨("a", 1), true⟩)]).connections.length
           = 1
       ∧ (ConnectionRegistry.mk 1 [(("a", 1), ⟨("a", 1), true⟩)]).tryAdd ("b", 2)
           = Option.none)
    ∧ ((ConnectionRegistry.mk 0 []).maxConnections = 0
       ∧ (ConnectionRegistry.mk 0 []).tryAdd ("b", 2)
           = some (⟨0, [(("b", 2), ⟨("b", 2), true⟩)]⟩, ⟨("b", 2), true⟩)) :=
  ⟨⟨by decide, claim_C7_connection_registry.1 2
      [.tryAddOp ("a", 1), .tryAddOp ("b", 2), .tryAddOp ("c", 3),
       .removeOp ("a", 1), .tryAddOp ("d", 4)] (by decide)⟩,
   ⟨by decide, rfl,
    (claim_C7_connection_registry.2.1 (ConnectionRegistry.mk 1
      [(("a", 1), ⟨("a", 1), true⟩)]) ("b", 2) (by decide) rfl).1⟩,
   ⟨rfl, claim_C7_connection_registry.2.2 (ConnectionRegistry.mk 0 []) ("b", 2) rfl⟩⟩

/-! ## Notify hub  (`src/common/notify_manager.py`)

The subscription table is `user_id → (token → queue)`; only queue
*presence* matters to the online/offline logic, so each user maps to the
insertion-ordered list of their token keys (each key owning one queue).
The external repositories (token resolution, `update_last_online`, the chat
membership expansion inside the broadcasts) are collaborators; `subscribe`
is modelled from the point where the token resolved to a user id, and the
broadcast / repository calls are recorded as emitted effects. -/

inductive NotifyEffect where
  | broadcastUserOnline (userId : Int)
  | broadcastUserOffline (userId : Int)
  | updateLastOnline (userId : Int)
  deriving DecidableEq

abbrev NotifySubs := List (Int × List (List Nat))

/-- `d[token] = queue` on the inner token map: a fresh queue replaces an
existing one under the same token (key set unchanged) or appends. -/
def tokenSet (toks : List (List Nat)) (token : List Nat) : List (List Nat) :=
  if toks.contains token then toks else toks ++ [token]

/-- `NotifyManager.subscribe`, from the point where the token resolved to
`user_id`: under the lock, a user with no entry gets a fresh inner mapping
and `_broadcast_user_online` fires *before* the queue is inserted; then the
queue is stored under the token. -/
def notifySubscribe (subs : NotifySubs) (userId : Int) (token : List Nat) :
    NotifySubs × List NotifyEffect :=
  match pyGet subs userId with
  | Option.none => (pySet subs userId [token], [.broadcastUserOnline userId])
  | some toks => (pySet subs userId (tokenSet toks token), [])

/-- `NotifyManager._unsubscribe`: under the lock, pop the token (no-op when
absent) and delete the user's entry when its inner mapping became empty;
then — unconditionally, whatever the remaining queue count —
`update_last_online(user_id)` and `_broadcast_user_offline(user_id)`. -/
def notifyUnsubscribe (subs : NotifySubs) (userId : Int) (token : List Nat) :
    NotifySubs × List NotifyEffect :=
  let subs' :=
    match pyGet subs userId with
    | Option.none => subs
    | some toks =>
      let toks' := toks.erase token
      if toks'.isEmpty then pyPop subs userId else pySet subs userId toks'
  (subs', [.updateLastOnline userId, .broadcastUserOffline userId])

/-- `NotifyManager.is_online`:
`user_id in self._subscriptions and len(self._subscriptions[user_id]) > 0`. -/
def isOnline (subs : NotifySubs) (userId : Int) : Bool :=
  match pyGet subs userId with
  | some toks => decide (0 < toks.length)
  | Option.none => false

/-- Invariant of the manager's table: as a Python dict it binds every user
id at most once, and empty inner mappings are removed eagerly, so every
stored user has at least one queue. -/
def wfNotify (subs : NotifySubs) : Bool :=
  decide ((subs.map Prod.fst).Nodup) && subs.all (fun p => !p.2.isEmpty)

theorem wfNotify_all {subs : NotifySubs} (hw : wfNotify subs = true) :
    subs.all (fun p => !p.2.isEmpty) = true := by
  unfold wfNotify at hw
  rw [Bool.and_eq_true] at hw
  exact hw.2

theorem wfNotify_nodup {subs : NotifySubs} (hw : wfNotify subs = true) :
    (subs.map Prod.fst).Nodup := by
  unfold wfNotify at hw
  rw [Bool.and_eq_true] at hw
  exact of_decide_eq_true hw.1

theorem wfNotify_lookup {subs : NotifySubs} {u : Int} {toks : List (List Nat)}
    (hw : wfNotify subs = true) (h : pyGet subs u = some toks) :
    toks ≠ [] := by
  unfold pyGet at h
  cases hf : subs.find? (fun p => p.1 == u) with
  | none => rw [hf] at h; simp at h
  | some e =>
    rw [hf] at h
    have he : e.2 = toks := by simpa using h
    have hmem := List.mem_of_find?_eq_some hf
    have hall := (List.all_eq_true.mp (wfNotify_all hw)) e hmem
    intro hnil
    rw [he, hnil] at hall
    simp at hall

theorem tokenSet_ne_nil (toks : List (List Nat)) (token : List Nat) :
    tokenSet toks token ≠ [] := by
  unfold tokenSet
  by_cases h : toks.contains token
  · rw [if_pos h]
    intro hnil
    rw [hnil] at h
    simp [List.contains] at h
  · rw [if_neg h]
    simp

theorem all_pySet {κ α : Type} [BEq κ] (q : α → Bool) (m : List (κ × α))
    (k : κ) (v : α) (hm : m.all (fun p => q p.2) = true) (hv : q v = true) :
    (pySet m k v).all (fun p => q p.2) = true := by
  induction m with
  | nil => simp [pySet, hv]
  | cons e m ih =>
    obtain ⟨k', v'⟩ := e
    simp only [List.all_cons, Bool.and_eq_true] at hm
    by_cases h : (k' == k) = true
    · simp only [pySet, h, if_true, List.all_cons, Bool.and_eq_true]
      exact ⟨hv, hm.2⟩
    · simp only [pySet, h, Bool.false_eq_true, if_false, List.all_cons,
        Bool.and_eq_true]
      exact ⟨hm.1, ih hm.2⟩

theorem mem_keys_pySet {κ α : Type} [BEq κ] {m : List (κ × α)} {k : κ}
    {v : α} {x : κ} (hx : x ∈ (pySet m k v).map Prod.fst) :
    x ∈ m.map Prod.fst ∨ x = k := by
  induction m with
  | nil => simp [pySet] at hx; exact Or.inr hx
  | cons e m ih =>
    obtain ⟨k', v'⟩ := e
    by_cases h : (k' == k) = true
    · simp only [pySet, h, if_true, List.map_cons, List.mem_cons] at hx
      rcases hx with hx | hx
      · exact Or.inr hx
      · exact Or.inl (List.mem_cons_of_mem _ hx)
    · simp only [pySet, h, Bool.false_eq_true, if_false, List.map_cons,
        List.mem_cons] at hx
      rcases hx with hx | hx
      · exact Or.inl (by simp [hx])
      · rcases ih hx with hx' | hx'
        · exact Or.inl (List.mem_cons_of_mem _ hx')
        · exact Or.inr hx'

theorem nodup_keys_pySet {κ α : Type} [BEq κ] [LawfulBEq κ]
    (m : List (κ × α)) (k : κ) (v : α) (hm : (m.map Prod.fst).Nodup) :
    ((pySet m k v).map Prod.fst).Nodup := by
  induction m with
  | nil => simp [pySet]
  | cons e m ih =>
    obtain ⟨k', v'⟩ := e
    simp only [List.map_cons, List.nodup_cons] at hm
    by_cases h : (k' == k) = true
    · have hk : k' = k := eq_of_beq h
      simp only [pySet, h, if_true, List.map_cons, List.nodup_cons]
      exact ⟨hk ▸ hm.1, hm.2⟩
    · simp only [pySet, h, Bool.false_eq_true, if_false, List.map_cons,
        List.nodup_cons]
      refine ⟨fun hmem => ?_, ih hm.2⟩
      rcases mem_keys_pySet hmem with hx | hx
      · exact hm.1 hx
      · exact absurd (beq_iff_eq.mpr hx) (by simpa using h)

theorem pyPop_sublist {κ α : Type} [BEq κ] (m : List (κ × α)) (k : κ) :
    List.Sublist (pyPop m k) m := by
  induction m with
  | nil => simp [pyPop]
  | cons e m ih =>
    obtain ⟨k', v'⟩ := e
    by_cases h : (k' == k) = true
    · simp only [pyPop, h, if_true]
      exact List.sublist_cons_self _ _
    · simp only [pyPop, h, Bool.false_eq_true, if_false]
      exact ih.cons₂ _

theorem pyGet_eq_none_of_not_mem {κ α : Type} [BEq κ] [LawfulBEq κ]
    {m : List (κ × α)} {k : κ} (h : k ∉ m.map Prod.fst) :
    pyGet m k = Option.none := by
  induction m with
  | nil => rfl
  | cons e m ih =>
    obtain ⟨k', v'⟩ := e
    simp only [List.map_cons, List.mem_cons, not_or] at h
    simp only [pyGet, List.find?]
    rw [show (k' == k) = false by
      rw [beq_eq_false_iff_ne]; exact fun e => h.1 e.symm]
    exact ih h.2

theorem pyGet_pyPop_self {κ α : Type} [BEq κ] [LawfulBEq κ]
    {m : List (κ × α)} (k : κ) (h : (m.map Prod.fst).Nodup) :
    pyGet (pyPop m k) k = Option.none := by
  induction m with
  | nil => rfl
  | cons e m ih =>
    obtain ⟨k', v'⟩ := e
    simp only [List.map_cons, List.nodup_cons] at h
    by_cases hk : (k' == k) = true
    · simp only [pyPop, hk, if_true]
      exact pyGet_eq_none_of_not_mem (eq_of_beq hk ▸ h.1)
    · simp only [pyPop, hk, Bool.false_eq_true, if_false, pyGet, List.find?, hk]
      exact ih h.2

/-- C6 counterexample: user 7 holds two token queues (a state reached by two
subscribes from the empty table); unsubscribing one token leaves the user
online with one remaining queue — yet `update_last_online` and the
`user_offline` broadcast fire anyway.  This refutes "the user_offline
broadcast fires exactly on transitions from 1 to 0, never on an unsubscribe
that leaves at least one remaining queue". -/
theorem claim_C6_counterexample :
    (notifySubscribe [] 7 (asciiBytes "a")).1 = [(7, [asciiBytes "a"])]
    ∧ (notifySubscribe [(7, [asciiBytes "a"])] 7 (asciiBytes "b")).1
        = [(7, [asciiBytes "a", asciiBytes "b"])]
    ∧ notifyUnsubscribe [(7, [asciiBytes "a", asciiBytes "b"])] 7 (asciiBytes "a")
        = ([(7, [asciiBytes "b"])],
           [.updateLastOnline 7, .broadcastUserOffline 7])
    ∧ isOnline [((7 : Int), [asciiBytes "b"])] 7 = true :=
  ⟨rfl, rfl, rfl, rfl⟩

/-- C6 (amended).  `is_online(U)` is false on the empty table and true
immediately after any subscribe; after an unsubscribe it equals "U's popped
token map still has another token", so it stays true until the last
unsubscribe and is false from then on.  The `user_online` broadcast fires
exactly when the user comes online (had no queue).  But the `user_offline`
broadcast and the `last_online_at` update fire on *every* unsubscribe —
including one that leaves the user with remaining queues, and one for a
user who was never subscribed — not only on the 1 → 0 transition.  The
table invariant (each user bound at most once, every stored user owning at
least one queue) is preserved by both subscribe and unsubscribe. -/
theorem claim_C6_online_transitions :
    (∀ u : Int, isOnline [] u = false)
    ∧ (∀ (subs : NotifySubs) (u : Int) (token : List Nat),
        isOnline (notifySubscribe subs u token).1 u = true)
    ∧ (∀ (subs : NotifySubs) (u : Int) (token : List Nat),
        wfNotify subs = true →
        (notifySubscribe subs u token).2
          = if isOnline subs u then [] else [.broadcastUserOnline u])
    ∧ (∀ (subs : NotifySubs) (u : Int) (token : List Nat),
        (notifyUnsubscribe subs u token).2
          = [.updateLastOnline u, .broadcastUserOffline u])
    ∧ (∀ (subs : NotifySubs) (u : Int) (token : List Nat),
        wfNotify subs = true →
        isOnline (notifyUnsubscribe subs u token).1 u
          = !(((pyGet subs u).getD []).erase token).isEmpty)
    ∧ (∀ (subs : NotifySubs) (u : Int) (token : List Nat),
        wfNotify subs = true →
        wfNotify (notifySubscribe subs u token).1 = true
        ∧ wfNotify (notifyUnsubscribe subs u token).1 = true) := by
  refine ⟨fun u => rfl, ?_, ?_, fun subs u token => rfl, ?_, ?_⟩
  · intro subs u token
    unfold notifySubscribe
    cases hg : pyGet subs u with
    | none =>
      simp only [isOnline, pyGet_pySet_self]
      simp
    | some toks =>
      simp only [isOnline, pyGet_pySet_self]
      have := tokenSet_ne_nil toks token
      cases htk : tokenSet toks token with
      | nil => exact absurd htk this
      | cons a l => simp
  · intro subs u token hw
    unfold notifySubscribe isOnline
    cases hg : pyGet subs u with
    | none => simp
    | some toks =>
      have hne := wfNotify_lookup hw hg
      cases toks with
      | nil => exact absurd rfl hne
      | cons a l => simp
  · intro subs u token hw
    unfold notifyUnsubscribe
    cases hg : pyGet subs u with
    | none =>
      show isOnline subs u = !((Option.getD Option.none []).erase token).isEmpty
      simp [isOnline, hg]
    | some toks =>
      by_cases he : (toks.erase token).isEmpty = true
      · show isOnline
            (if (toks.erase token).isEmpty then pyPop subs u
             else pySet subs u (toks.erase token)) u
          = !((Option.getD (some toks) []).erase token).isEmpty
        rw [if_pos he]
        have hnone := pyGet_pyPop_self u (wfNotify_nodup hw) (m := subs)
        simp [isOnline, hnone, he]
      · show isOnline
            (if (toks.erase token).isEmpty then pyPop subs u
             else pySet subs u (toks.erase token)) u
          = !((Option.getD (some toks) []).erase token).isEmpty
        rw [if_neg he]
        simp only [isOnline, pyGet_pySet_self, Option.getD_some]
        cases hte : toks.erase token with
        | nil => rw [hte] at he; simp at he
        | cons a l => simp
  · intro subs u token hw
    constructor
    · unfold notifySubscribe
      cases hg : pyGet subs u with
      | none =>
        show wfNotify (pySet subs u [token]) = true
        unfold wfNotify
        rw [Bool.and_eq_true]
        refine ⟨decide_eq_true (nodup_keys_pySet subs u [token]
          (wfNotify_nodup hw)), ?_⟩
        exact all_pySet (fun v => !v.isEmpty) subs u [token] (wfNotify_all hw) (by simp)
      | some toks =>
        show wfNotify (pySet subs u (tokenSet toks token)) = true
        unfold wfNotify
        rw [Bool.and_eq_true]
        refine ⟨decide_eq_true (nodup_keys_pySet subs u (tokenSet toks token)
          (wfNotify_nodup hw)), ?_⟩
        refine all_pySet (fun v => !v.isEmpty) subs u (tokenSet toks token) (wfNotify_all hw) ?_
        have := tokenSet_ne_nil toks token
        cases htk : tokenSet toks token with
        | nil => exact absurd htk this
        | cons a l => simp
    · unfold notifyUnsubscribe
      cases hg : pyGet subs u with
      | none => exact hw
      | some toks =>
        by_cases he : (toks.erase token).isEmpty = true
        · show wfNotify
              (if (toks.erase token).isEmpty then pyPop subs u
               else pySet subs u (toks.erase token)) = true
          rw [if_pos he]
          unfold wfNotify
          rw [Bool.and_eq_true]
          have hsub := pyPop_sublist subs u
          refine ⟨decide_eq_true
            ((wfNotify_nodup hw).sublist (hsub.map Prod.fst)), ?_⟩
          refine List.all_eq_true.mpr fun x hx => ?_
          exact List.all_eq_true.mp (wfNotify_all hw) x (hsub.subset hx)
        · show wfNotify
              (if (toks.erase token).isEmpty then pyPop subs u
               else pySet subs u (toks.erase token)) = true
          rw [if_neg he]
          unfold wfNotify
          rw [Bool.and_eq_true]
          refine ⟨decide_eq_true (nodup_keys_pySet subs u (toks.erase token)
            (wfNotify_nodup hw)), ?_⟩
          refine all_pySet (fun v => !v.isEmpty) subs u (toks.erase token) (wfNotify_all hw) ?_
          simpa using he

theorem claim_C6_online_transitions_witness :
    (wfNotify [((7 : Int), [asciiBytes "a"])] = true
     ∧ (notifySubscribe [((7 : Int), [asciiBytes "a"])] 7 (asciiBytes "b")).2
       = if isOnline [((7 : Int), [asciiBytes "a"])] 7 then []
         else [.broadcastUserOnline 7])
    ∧ (wfNotify [] = true
       ∧ (notifySubscribe [] 3 (asciiBytes "t")).2
         = if isOnline [] 3 then [] else [.broadcastUserOnline 3])
    ∧ isOnline (notifySubscribe [] 3 (asciiBytes "t")).1 3 = true
    ∧ (notifyUnsubscribe [] 3 (asciiBytes "t")).2
      = [.updateLastOnline 3, .broadcastUserOffline 3]
    ∧ (wfNotify [((7 : Int), [asciiBytes "a", asciiBytes "b"])] = true
       ∧ isOnline (notifyUnsubscribe [((7 : Int), [asciiBytes "a", asciiBytes "b"])]
             7 (asciiBytes "a")).1 7
         = !(((pyGet [((7 : Int), [asciiBytes "a", asciiBytes "b"])] (7 : Int)).getD
             []).erase (asciiBytes "a")).isEmpty)
    ∧ (wfNotify [((3 : Int), [asciiBytes "t"])] = true
       ∧ isOnline (notifyUnsubscribe [((3 : Int), [asciiBytes "t"])]
             3 (asciiBytes "t")).1 3
         = !(((pyGet [((3 : Int), [asciiBytes "t"])] (3 : Int)).getD
             []).erase (asciiBytes "t")).isEmpty)
    ∧ (wfNotify [((3 : Int), [asciiBytes "t"])] = true
       ∧ wfNotify (notifySubscribe [((3 : Int), [asciiBytes "t"])]
           3 (asciiBytes "u")).1 = true
       ∧ wfNotify (notifyUnsubscribe [((3 : Int), [asciiBytes "t"])]
           3 (asciiBytes "t")).1 = true) :=
  ⟨⟨by decide, claim_C6_online_transitions.2.2.1 [((7 : Int), [asciiBytes "a"])]
      7 (asciiBytes "b") (by decide)⟩,
   ⟨by decide, claim_C6_online_transitions.2.2.1 [] 3 (asciiBytes "t") (by decide)⟩,
   claim_C6_online_transitions.2.1 [] 3 (asciiBytes "t"),
   claim_C6_online_transitions.2.2.2.1 [] 3 (asciiBytes "t"),
   ⟨by decide, claim_C6_online_transitions.2.2.2.2.1
      [((7 : Int), [asciiBytes "a", asciiBytes "b"])] 7 (asciiBytes "a")
      (by decide)⟩,
   ⟨by decide, claim_C6_online_transitions.2.2.2.2.1
      [((3 : Int), [asciiBytes "t"])] 3 (asciiBytes "t") (by decide)⟩,
   ⟨by decide,
    (claim_C6_online_transitions.2.2.2.2.2
      [((3 : Int), [asciiBytes "t"])] 3 (asciiBytes "u") (by decide)).1,
    (claim_C6_online_transitions.2.2.2.2.2
      [((3 : Int), [asciiBytes "t"])] 3 (asciiBytes "t") (by decide)).2⟩⟩
